import Mathlib

/-!
# Cyberspace: fleet visualiser

A shallow embedding of the parts of `stojg/cyberspace` that its specification
talks about: the health, name and scale of an instance
(`lib/components/aws_instance.go`, `level.go`), the throttled AI controller
(`ai.go`), the idle state (`lib/state/idle.go`) and the broadcast hub with its
binary framing (`network.go`).

Conventions of the embedding.

* Go `float64` values are exact rationals (`Float64 := ℚ`): the arithmetic of
  the program is carried out without rounding, and NaN and the infinities are
  not values of the model.
* Pointers to records become the records themselves; a method that mutates its
  receiver returns the new receiver.
* A Go `panic` is the value `none`.
* `math.Pow` is a parameter of the functions that call it: any function on the
  rationals where the float64 result matters, with its distance from the real cube
  root as a hypothesis, and the power function of the reals where the exact formula
  is meant.
-/

namespace Cyberspace

/-! ## Definitions -/

/-- Go `float64`, as an exact rational. -/
abbrev Float64 := ℚ

/-- The `vector.Vector3` array `[3]float64`. -/
structure Vector3 where
  x : Float64
  y : Float64
  z : Float64
  deriving DecidableEq, Repr

/-- The `vector.Quaternion` record. -/
structure Quaternion where
  R : Float64
  I : Float64
  J : Float64
  K : Float64
  deriving DecidableEq, Repr

/-! ### `lib/components/aws_instance.go` -/

/-- The scalar fields of `AWSInstance`. The fields of the embedded `Model` and
`Collision` components that `Update` writes are kept beside them in
`InstanceEntity`; the mutex and the tree pointer are not modelled. -/
structure AWSInstance where
  Cluster : String
  Stack : String
  Environment : String
  InstanceID : String
  HasCredits : Bool
  InstanceType : String
  State : String
  Name : String
  cpuUtilization : Float64
  cpuCreditBalance : Float64
  PrivateIP : String
  PublicIP : String
  deriving DecidableEq, Repr

/-- `AWSInstance.SetCPUUtilization`: stores the value as it is given. -/
def AWSInstance.SetCPUUtilization (inst : AWSInstance) (v : Float64) : AWSInstance :=
  { inst with cpuUtilization := v }

/-- `AWSInstance.CPUUtilization`. -/
def AWSInstance.CPUUtilization (inst : AWSInstance) : Float64 :=
  inst.cpuUtilization

/-- `AWSInstance.SetCPUCreditBalance`: stores the value as it is given. -/
def AWSInstance.SetCPUCreditBalance (inst : AWSInstance) (v : Float64) : AWSInstance :=
  { inst with cpuCreditBalance := v }

/-- `AWSInstance.CPUCreditBalance`. -/
def AWSInstance.CPUCreditBalance (inst : AWSInstance) : Float64 :=
  inst.cpuCreditBalance

/-- `AWSInstance.Health`. -/
def AWSInstance.Health (inst : AWSInstance) : Float64 :=
  let maxHealth : Float64 := 1
  if inst.State ≠ "running" then
    maxHealth
  else if inst.HasCredits && decide (inst.CPUCreditBalance < 10) then
    0
  else
    maxHealth - inst.CPUUtilization / 100

/-- A running `m3.large` instance with nothing measured yet. -/
def sampleInstance : AWSInstance :=
  { Cluster := "web", Stack := "app", Environment := "prod", InstanceID := "i-1",
    HasCredits := false, InstanceType := "m3.large", State := "running",
    Name := "web.app.prod", cpuUtilization := 0, cpuCreditBalance := 0,
    PrivateIP := "10.0.0.1", PublicIP := "" }

/-! ### `level.go` -/

/-- The fields of the monitor's instance record that `Level.Draw` reads. -/
structure Instance where
  InstanceType : String
  State : String
  CPUUtilization : Float64
  CPUCreditBalance : Float64
  deriving DecidableEq, Repr

/-- The fields of the model component that `Level.Draw` reads. -/
structure ModelComponent where
  Position : Vector3
  Orientation : Quaternion
  Model : Nat
  Scale : Vector3
  deriving DecidableEq, Repr

/-- One `binaryStream(buf, tag, value)` call of `Level.Draw`, named after the
tag constant it passes. -/
inductive DrawField where
  | INST_ENTITY_ID (id : Nat)
  | INST_SET_POSITION (v : Vector3)
  | INST_SET_ORIENTATION (q : Quaternion)
  | INST_SET_TYPE (m : Nat)
  | INST_SET_SCALE (v : Vector3)
  | INST_SET_HEALTH (health : Float64)
  deriving DecidableEq, Repr

/-- The health that the loop body of `Level.Draw` computes for an instance. -/
def Level.drawHealth (inst : Instance) : Float64 :=
  if decide (inst.CPUCreditBalance < 10) && "t2".isPrefixOf inst.InstanceType
      && decide (inst.State = "running") then
    0
  else
    1 - inst.CPUUtilization / 100

/-- The loop body of `Level.Draw` for one entry of the model list. -/
def Level.drawEntity (monitor : Nat → Instance) (id : Nat) (component : ModelComponent) :
    List DrawField :=
  [ .INST_ENTITY_ID id,
    .INST_SET_POSITION component.Position,
    .INST_SET_ORIENTATION component.Orientation,
    .INST_SET_TYPE component.Model,
    .INST_SET_SCALE component.Scale,
    .INST_SET_HEALTH (Level.drawHealth (monitor id)) ]

/-- `Level.Draw`: the frame number, then the fields of every entry of the model
list (`models` is the list in the order the range loop visits it; `monitor` is
`monitor.FindByEntityID`). -/
def Level.Draw (Frame : Nat) (monitor : Nat → Instance) (models : List (Nat × ModelComponent)) :
    Nat × List DrawField :=
  (Frame, models.flatMap fun e => Level.drawEntity monitor e.1 e.2)

/-- A stopped instance whose last CPU reading was 50 %. -/
def stoppedInstance : Instance :=
  { InstanceType := "m3.large", State := "stopped", CPUUtilization := 50,
    CPUCreditBalance := 0 }

/-- A unit cube at the origin. -/
def unitModel : ModelComponent :=
  { Position := ⟨0, 0, 0⟩, Orientation := ⟨1, 0, 0, 0⟩, Model := 1, Scale := ⟨1, 1, 1⟩ }

/-! ### `ai.go` -/

/-- The fields of the `vivere` model component that the controller uses: the vector
behind `Position()` and the public `Scale`. -/
structure Model where
  position : Vector3
  Scale : Vector3
  deriving DecidableEq, Repr

/-- The fields of the `vivere` rigid body that the controller and its states use. -/
structure RigidBody where
  Rotation : Vector3
  forceAccum : Vector3
  torqueAccum : Vector3
  deriving DecidableEq, Repr

/-- The `steering.SteeringOutput` record behind `Linear()` and `Angular()`. -/
structure SteeringOutput where
  linear : Vector3
  angular : Vector3
  deriving DecidableEq, Repr

/-- The objects that a controller and its state share through pointers: the
instance, the model and the body of one entity. -/
structure World where
  inst : AWSInstance
  model : Model
  body : RigidBody
  deriving DecidableEq, Repr

/-- The `State` interface: `Update()` returns the next state or nil, `Steering()`
returns a steering output or nil. Both may write through the pointers the state
holds, so both return the world they leave behind. -/
inductive State where
  | mk (Update : World → World × Option State)
       (Steering : World → World × Option SteeringOutput)

/-- The `Update()` method of a state. -/
def State.Update : State → World → World × Option State
  | .mk u _ => u

/-- The `Steering()` method of a state. -/
def State.Steering : State → World → World × Option SteeringOutput
  | .mk _ f => f

/-- What `AI.Update` calls outside `ai.go`: the constructor `NewIdle(s.entity,
s.instance, s.model, s.body)` of the idle state and the `AddForce` and `AddTorque`
methods of the `vivere` rigid body. -/
structure Lib where
  NewIdle : State
  AddForce : RigidBody → Vector3 → RigidBody
  AddTorque : RigidBody → Vector3 → RigidBody

/-- The `AI` record: the `state` interface value (`none` is nil) and the `reminder`
accumulator. The `entity`, `instance`, `model` and `body` pointers are the `World`
that every function takes; `target` is never read. -/
structure AI where
  state : Option State
  reminder : Float64

/-- `NewAI`: the idle state and a zero remainder. -/
def NewAI (lib : Lib) : AI :=
  { state := some lib.NewIdle, reminder := 0 }

/-- The first block of `AI.Update`: the throttle. Returns the controller, the world
and whether `s.state.Update()` was called; calling it on a nil state panics. -/
def AI.throttle (s : AI) (w : World) (elapsed : Float64) : Option (AI × World × Bool) :=
  let reminder := s.reminder + elapsed
  if reminder > 1 / 10 then
    match s.state with
    | none => none
    | some st =>
      let r := st.Update w
      match r.2 with
      | some next => some ({ state := some next, reminder := -(1 / 10) }, r.1, true)
      | none => some ({ state := some st, reminder := -(1 / 10) }, r.1, true)
  else
    some ({ s with reminder := reminder }, w, false)

/-- The rest of `AI.Update`: the nil guard, the steering query, and the ground
clamp `s.model.Position()[1] = s.model.Scale[1] / 2`. -/
def AI.steer (lib : Lib) (s : AI) (w : World) : AI × World :=
  let st := match s.state with
    | some st => st
    | none => lib.NewIdle
  let r := st.Steering w
  let w1 := r.1
  let body := match r.2 with
    | some steering => lib.AddTorque (lib.AddForce w1.body steering.linear) steering.angular
    | none => w1.body
  ({ s with state := some st },
   { w1 with
      body := body
      model := { w1.model with position := { w1.model.position with y := w1.model.Scale.y / 2 } } })

/-- `AI.Update`: the new controller, the new world, and whether this call invoked
`state.Update()`; `none` is a panic. -/
def AI.Update (lib : Lib) (s : AI) (w : World) (elapsed : Float64) : Option (AI × World × Bool) :=
  match AI.throttle s w elapsed with
  | none => none
  | some (s1, w1, called) =>
    let r := AI.steer lib s1 w1
    some (r.1, r.2, called)

/-- The controller after `n` consecutive calls `AI.Update(dt)`, with the number of
`state.Update()` invocations made on the way. -/
def AI.run (lib : Lib) (dt : Float64) : Nat → AI → World → Option (AI × World × Nat)
  | 0, s, w => some (s, w, 0)
  | n + 1, s, w =>
    match AI.run lib dt n s w with
    | none => none
    | some (s1, w1, count) =>
      match AI.Update lib s1 w1 dt with
      | none => none
      | some (s2, w2, called) => some (s2, w2, if called then count + 1 else count)

/-- A state that never changes and never steers. -/
def restState : State :=
  .mk (fun w => (w, none)) (fun w => (w, none))

/-- A state that stays and pushes along x while spinning around y. -/
def pushState : State :=
  .mk (fun w => (w, none)) (fun w => (w, some ⟨⟨1, 0, 0⟩, ⟨0, 1, 0⟩⟩))

/-- Accumulating implementations of `AddForce` and `AddTorque`. -/
def sampleLib : Lib :=
  { NewIdle := restState
    AddForce := fun b f =>
      { b with forceAccum := ⟨b.forceAccum.x + f.x, b.forceAccum.y + f.y, b.forceAccum.z + f.z⟩ }
    AddTorque := fun b t =>
      { b with torqueAccum := ⟨b.torqueAccum.x + t.x, b.torqueAccum.y + t.y, b.torqueAccum.z + t.z⟩ } }

/-- A cube of side 4 that floats at height 9. -/
def sampleWorld : World :=
  { inst := sampleInstance
    model := { position := ⟨1, 9, 2⟩, Scale := ⟨4, 4, 4⟩ }
    body := { Rotation := ⟨0, 0, 0⟩, forceAccum := ⟨0, 0, 0⟩, torqueAccum := ⟨0, 0, 0⟩ } }

/-- The remainder and the number of state updates after `n` calls with the step
1/60, starting from remainder 0: nothing in the first six calls, the first update in
the seventh, and then one update every thirteen calls. -/
def ThrottleInv (n : Nat) (reminder : Float64) (count : Nat) : Prop :=
  (n < 7 ∧ reminder = (n : ℚ) / 60 ∧ count = 0) ∨
  (∃ q r : Nat, n = 7 + 13 * q + r ∧ r < 13 ∧ reminder = -(1 / 10) + (r : ℚ) / 60 ∧
    count = q + 1)


/-! ### `network.go`: the wire format -/

/-- A byte buffer; every element is below 256. -/
abbrev Bytes := List Nat

/-- The four bytes of a 32-bit pattern, least significant first
(`binary.LittleEndian`). -/
def le32 (bits : Nat) : Bytes :=
  [bits % 256, bits / 256 % 256, bits / 65536 % 256, bits / 16777216 % 256]

/-- The quotient `n / 2 ^ shift` rounded to the nearest integer, ties to even. -/
def roundShift (n shift : Nat) : Nat :=
  let q := n / 2 ^ shift
  let r := n % 2 ^ shift
  if 2 * r > 2 ^ shift ∨ (2 * r = 2 ^ shift ∧ q % 2 = 1) then q + 1 else q

/-- The Go conversion `float32(n)` of an unsigned integer, as the IEEE-754 binary32
bit pattern of the nearest float (ties to even). -/
def float32OfNat (n : Nat) : Nat :=
  if n = 0 then 0
  else
    let e := Nat.log2 n
    if e ≤ 23 then (e + 126) * 2 ^ 23 + n * 2 ^ (23 - e)
    else
      let bits := (e + 126) * 2 ^ 23 + roundShift n (e - 23)
      if bits ≥ 0x7F800000 then 0x7F800000 else bits

/-- A non-negative rational rounded to the nearest integer, ties to even. -/
def roundHalfEven (x : ℚ) : Nat :=
  let fl := ⌊x⌋.toNat
  let frac := x - fl
  if frac > 1 / 2 ∨ (frac = 1 / 2 ∧ fl % 2 = 1) then fl + 1 else fl

/-- The Go conversion `float32(x)` of a `float64`, as the IEEE-754 binary32 bit
pattern of the nearest float (ties to even, subnormals, overflow to infinity). -/
def float32OfFloat64 (x : Float64) : Nat :=
  if x = 0 then 0
  else
    let sign := if x < 0 then 2 ^ 31 else 0
    let a := |x|
    let e0 : Int := (Nat.log2 a.num.natAbs : Int) - (Nat.log2 a.den : Int)
    let e := if a < (2 : ℚ) ^ e0 then e0 - 1 else e0
    let E := max e (-126)
    let m := roundHalfEven (a * (2 : ℚ) ^ (23 - E))
    let bits := (E + 126).toNat * 2 ^ 23 + m
    sign + (if bits ≥ 0x7F800000 then 0x7F800000 else bits)

/-- The conversion `int32(v)` of an `int`, as a two's complement bit pattern. -/
def int32Bits (v : Int) : Nat :=
  (v % 2 ^ 32).toNat

/-- The dynamic values that `binaryStream` receives as `interface{}`: one
constructor for each case of its type switch, and `other` for a value of any other
type. -/
inductive Value where
  | uint8 (val : Nat)
  | uint16 (val : Nat)
  | uint32 (val : Nat)
  | int (val : Int)
  | float32 (bits : Nat)
  | float64 (val : Float64)
  | ID (val : Nat)
  | Vector3 (val : Vector3)
  | Quaternion (val : Quaternion)
  | other
  deriving DecidableEq, Repr

/-- The tag constants of `network.go`. -/
def instEntityID : Nat := 1

/-- The tag of a position field. -/
def instPosition : Nat := 2

/-- The tag of an orientation field. -/
def instOrientation : Nat := 3

/-- The tag of a model-type field. -/
def instType : Nat := 4

/-- The tag of a scale field. -/
def instScale : Nat := 5

/-- The bytes that the type switch of `binaryStream` writes after the tag byte;
`none` is the panic of the default case. -/
def payload : Value → Option Bytes
  | .uint8 val => some [val % 256]
  | .uint16 val => some (le32 (float32OfNat val))
  | .uint32 val => some (le32 (float32OfNat val))
  | .int val => some (le32 (int32Bits val))
  | .float32 bits => some (le32 bits)
  | .float64 val => some (le32 (float32OfFloat64 val))
  | .ID val => some (le32 (float32OfNat val))
  | .Vector3 val =>
    some (le32 (float32OfFloat64 val.x) ++ le32 (float32OfFloat64 val.y) ++
      le32 (float32OfFloat64 val.z))
  | .Quaternion val =>
    some (le32 (float32OfFloat64 val.R) ++ le32 (float32OfFloat64 val.I) ++
      le32 (float32OfFloat64 val.J) ++ le32 (float32OfFloat64 val.K))
  | .other => none

/-- `binaryStream`: appends the tag byte and the payload of the value to the buffer.
Writes to a `bytes.Buffer` never fail, so the result is the new buffer, or `none`
when the value has a type the switch does not know (panic). -/
def binaryStream (buf : Bytes) (varType : Nat) (value : Value) : Option Bytes :=
  match payload value with
  | none => none
  | some bytes => some (buf ++ [varType] ++ bytes)

/-- The `core.Transform` of a game object. -/
structure Transform where
  position : Vector3
  orientation : Quaternion
  scale : Vector3
  deriving DecidableEq, Repr

/-- The `core.Body` component, of which the hub reads `Awake()`. -/
structure Body where
  awake : Bool
  deriving DecidableEq, Repr

/-- A `core.GameObject` as the hub sees it: `ID()`, `Transform()`, the result of
`Graphic()` reduced to the `Model()` of the graphic that the object list holds for
the id (`none` is a nil graphic; the declared type of the model is not fixed here),
and the result of `Body()` (`none` is nil). -/
structure GameObject where
  id : Nat
  transform : Transform
  graphic : Option Value
  body : Option Body
  deriving DecidableEq, Repr

/-- A `core.Graphic` of the list `core.List.Graphics()`: its `GameObject()` and its
`rendered` flag. -/
structure Graphic where
  gameObject : GameObject
  rendered : Bool
  deriving DecidableEq, Repr

/-- `Graphic.IsRendered`. -/
def Graphic.IsRendered (g : Graphic) : Bool :=
  g.rendered

/-- `Graphic.SetRendered`. -/
def Graphic.SetRendered (g : Graphic) : Graphic :=
  { g with rendered := true }

/-- The part of the global `core.List` that the hub uses: the graphics in list
order and the ids deleted since they were last cleared. -/
structure ObjectList where
  graphics : List Graphic
  deleted : List Nat
  deriving DecidableEq, Repr

/-- `ObjectList.Graphics`. -/
def ObjectList.Graphics (l : ObjectList) : List Graphic :=
  l.graphics

/-- `ObjectList.Deleted`. -/
def ObjectList.Deleted (l : ObjectList) : List Nat :=
  l.deleted

/-- Modelled from the spec: `ObjectList.ClearDeleted` of `lib/core`, whose source is
not available; the deleted ids are drained once they are consumed by the broadcast
hub, so the call leaves the deleted list empty. -/
def ObjectList.ClearDeleted (l : ObjectList) : ObjectList :=
  { l with deleted := [] }

/-- `serialize`: the fields of one game object, appended to the buffer. -/
def serialize (buf : Bytes) (gameObject : GameObject) : Option Bytes := do
  let buf ← binaryStream buf instEntityID (.ID gameObject.id)
  let buf ← binaryStream buf instPosition (.Vector3 gameObject.transform.position)
  let buf ← binaryStream buf instOrientation (.Quaternion gameObject.transform.orientation)
  let buf ←
    match gameObject.graphic with
    | some model => binaryStream buf instType model
    | none => some buf
  binaryStream buf instScale (.Vector3 gameObject.transform.scale)

/-- The frame header that the three draw functions write first:
`float32(currentFrame)`, little endian. -/
def frameHeader (currentFrame : Nat) : Bytes :=
  le32 (float32OfNat currentFrame)

/-- The range loop of `level.draw` over the graphics: returns the buffer and the
graphics with their new `rendered` flags. -/
def drawLoop (buf : Bytes) : List Graphic → Option (Bytes × List Graphic)
  | [] => some (buf, [])
  | graphic :: rest =>
    let gameObject := graphic.gameObject
    if !graphic.IsRendered then
      match serialize buf gameObject with
      | none => none
      | some buf1 =>
        match drawLoop buf1 rest with
        | none => none
        | some (out, rest1) => some (out, graphic.SetRendered :: rest1)
    else
      let body := gameObject.body
      let awake := match body with
        | some b => b.awake
        | none => false
      if awake then
        match serialize buf gameObject with
        | none => none
        | some buf1 =>
          match drawLoop buf1 rest with
          | none => none
          | some (out, rest1) => some (out, graphic :: rest1)
      else
        match drawLoop buf rest with
        | none => none
        | some (out, rest1) => some (out, graphic :: rest1)

/-- `level.draw`: the delta frame and the object list it leaves behind. -/
def level.draw (currentFrame : Nat) (list : ObjectList) : Option (Bytes × ObjectList) :=
  match drawLoop (frameHeader currentFrame) list.Graphics with
  | none => none
  | some (buf, graphics) => some (buf, { list with graphics := graphics })

/-- The range loop of `level.fullDraw` over the graphics. -/
def fullDrawLoop (buf : Bytes) : List Graphic → Option Bytes
  | [] => some buf
  | graphic :: rest =>
    match serialize buf graphic.gameObject with
    | none => none
    | some buf1 => fullDrawLoop buf1 rest

/-- `level.fullDraw`: the snapshot frame and the object list it leaves behind. -/
def level.fullDraw (currentFrame : Nat) (list : ObjectList) : Option (Bytes × ObjectList) :=
  match fullDrawLoop (frameHeader currentFrame) list.Graphics with
  | none => none
  | some buf => some (buf, list)

/-- The range loop of `level.drawDead` over the deleted ids. -/
def drawDeadLoop (buf : Bytes) : List Nat → Option Bytes
  | [] => some buf
  | id :: rest =>
    match binaryStream buf instEntityID (.ID id) with
    | none => none
    | some buf1 => drawDeadLoop buf1 rest

/-- `level.drawDead`: the dead frame and the object list it leaves behind. -/
def level.drawDead (currentFrame : Nat) (list : ObjectList) : Option (Bytes × ObjectList) :=
  match drawDeadLoop (frameHeader currentFrame) list.Deleted with
  | none => none
  | some buf => some (buf, list.ClearDeleted)

/-- The bytes that `serialize` writes for one game object into an empty buffer. -/
def serialized (gameObject : GameObject) : Bytes :=
  (serialize [] gameObject).getD []

/-- The test of `level.draw`: the graphic is not yet rendered, or the object has a
body and the body is awake. -/
def drawn (graphic : Graphic) : Bool :=
  !graphic.IsRendered ||
    (match graphic.gameObject.body with
      | some b => b.awake
      | none => false)

/-- A unit cube with id 3, a graphic of model 1, and a sleeping body. -/
def sampleObject : GameObject :=
  { id := 3
    transform := { position := ⟨1, 2, 3⟩, orientation := ⟨1, 0, 0, 0⟩, scale := ⟨1, 1, 1⟩ }
    graphic := some (.int 1)
    body := some ⟨false⟩ }

/-- Two graphics: a new one and one that was already rendered and sleeps. -/
def sampleList : ObjectList :=
  { graphics := [⟨sampleObject, false⟩, ⟨{ sampleObject with id := 4 }, true⟩]
    deleted := [7, 9] }

/-! ### `network.go`: the client hub -/

/-- A `*client.Client`: the identity of the pointer. -/
abbrev Client := Nat

/-- What a `Write` does to the clients, in order: the `c.Update(data, cmd)` and
`c.Close()` calls it makes. -/
inductive HubEvent where
  | Update (c : Client) (data : Bytes) (cmd : Nat)
  | Close (c : Client)
  deriving DecidableEq, Repr

/-- The `clientHub` record (the mutex is not modelled). -/
structure clientHub where
  clients : List Client
  deriving DecidableEq, Repr

/-- `clientHub.remove`: `append(clients[:i], clients[i+1:]...)`, for an index `i` of
the list. -/
def clientHub.remove (network : clientHub) (i : Nat) : clientHub :=
  { clients := network.clients.take i ++ network.clients.drop (i + 1) }

/-- `clientHub.add`. -/
def clientHub.add (network : clientHub) (c : Client) : clientHub :=
  { clients := network.clients ++ [c] }

/-- The result of `clientHub.Write`: the hub afterwards, the returned byte count and
error, and the calls made on the clients. -/
structure WriteResult where
  network : clientHub
  n : Nat
  err : Option String
  events : List HubEvent
  deriving DecidableEq, Repr

/-- The range loop of `clientHub.Write` from index `i` on, over the clients that are
still to be visited. `Update c data cmd` is the outcome `(nc, err)` of the call
`c.Update(data, cmd)` of `lib/client`. -/
def writeLoop (Update : Client → Bytes → Nat → Nat × Option String) (network : clientHub)
    (cmd : Nat) (data : Bytes) : Nat → Nat → List HubEvent → List Client → WriteResult
  | _, n, events, [] => { network := network, n := n, err := none, events := events }
  | i, n, events, c :: rest =>
    let r := Update c data cmd
    let n := n + r.1
    match r.2 with
    | some err =>
      { network := network.remove i, n := n, err := some err,
        events := events ++ [.Update c data cmd, .Close c] }
    | none => writeLoop Update network cmd data (i + 1) n (events ++ [.Update c data cmd]) rest

/-- `clientHub.Write`. -/
def clientHub.Write (Update : Client → Bytes → Nat → Nat × Option String) (network : clientHub)
    (cmd : Nat) (data : Bytes) : WriteResult :=
  writeLoop Update network cmd data 0 0 [] network.clients

/-- A network on which every send to client 1 fails and every other send writes the
whole frame. -/
def brokenFirst (c : Client) (data : Bytes) (_cmd : Nat) : Nat × Option String :=
  if c = 1 then (0, some "write: broken pipe") else (data.length, none)

/-! ### Reading an id back from the wire -/

/-- The 32-bit pattern that four little-endian bytes stand for. -/
def le32Decode : Bytes → Nat
  | [b0, b1, b2, b3] => b0 + 256 * b1 + 65536 * b2 + 16777216 * b3
  | _ => 0

/-- The integer that a non-negative finite binary32 pattern denotes, truncated
towards zero: what a reader of the frame obtains when it converts the float of an
ENTITY_ID field back to an integer id. -/
def float32ToNat (bits : Nat) : Nat :=
  let E := bits / 2 ^ 23 % 256
  let m := bits % 2 ^ 23
  if E = 0 then 0
  else if 150 ≤ E then (2 ^ 23 + m) * 2 ^ (E - 150)
  else (2 ^ 23 + m) / 2 ^ (150 - E)

/-! ### `lib/components/aws_instance.go`: `Update`, `SetScale`, `SetName` -/

/-- The zero value `&AWSInstance{}` of the scalar fields. -/
def zeroInstance : AWSInstance :=
  { Cluster := "", Stack := "", Environment := "", InstanceID := "", HasCredits := false,
    InstanceType := "", State := "", Name := "", cpuUtilization := 0, cpuCreditBalance := 0,
    PrivateIP := "", PublicIP := "" }

/-- An `ec2.Tag`, with the strings behind its `Key` and `Value` pointers. -/
structure Tag where
  Key : String
  Value : String
  deriving DecidableEq, Repr

/-- The fields of an `ec2.Instance` that `Update` reads: `State` is `State.Name`, and
an address is `none` when its pointer is nil. -/
structure Ec2Instance where
  InstanceId : String
  InstanceType : String
  State : String
  PublicIpAddress : Option String
  PrivateIpAddress : Option String
  Tags : List Tag
  deriving DecidableEq, Repr

/-- The entries of the `typeToCost` map that `init` fills in. -/
def typeToCostEntries : List (String × ℚ) :=
  [ ("t2.nano", 0.01),
    ("t2.micro", 0.02),
    ("t2.small", 0.04),
    ("t2.medium", 0.08),
    ("m4.2xlarge", 0.336),
    ("m3.large", 0.186),
    ("c3.large", 0.132),
    ("c4.large", 0.137),
    ("t1.micro", 0.02),
    ("m1.small", 0.058),
    ("m1.medium", 0.117) ]

/-- The map lookup `typeToCost[key]`: the cost, or `none` when `ok` is false. -/
def typeToCost (key : String) : Option ℚ :=
  typeToCostEntries.lookup key

/-- A `vector.Vector3` whose components lie in `K`. The scale of a model is kept in
a field `K` of its own because `math.Pow` leaves the rationals: `K` is the reals when
the power is the real power. -/
structure Vector3In (K : Type) where
  x : K
  y : K
  z : K

/-- The `Rectangle` collision geometry. -/
structure Rectangle (K : Type) where
  HalfSize : Vector3In K

/-- An `AWSInstance` together with the fields of its embedded components that
`Update` writes: `Model.Scale` and `Collision.Geometry` (`none` is nil). -/
structure InstanceEntity (K : Type) where
  inst : AWSInstance
  Scale : Vector3In K
  Geometry : Option (Rectangle K)

/-- `AWSInstance.SetScale`: the new `Model.Scale`; `Pow` is `math.Pow`. -/
def SetScale {K : Type} [DivisionRing K] (Pow : K → K → K) (ec2Inst : Ec2Instance) :
    Vector3In K :=
  match typeToCost ec2Inst.InstanceType with
  | none => ⟨10, 10, 10⟩
  | some t =>
    let costToDimension := (t : K) * 10000
    let size := Pow costToDimension (1 / 3)
    ⟨size, size, size⟩

/-- `strings.HasPrefix(s, pre)`, on the characters of the two strings. -/
def HasPrefix (s pre : String) : Bool :=
  pre.data.isPrefixOf s.data

/-- The pieces of a list of characters between the occurrences of `sep`. -/
def splitChars (sep : Char) : List Char → List (List Char)
  | [] => [[]]
  | c :: cs =>
    if c = sep then [] :: splitChars sep cs
    else
      match splitChars sep cs with
      | [] => [[c]]
      | part :: parts => (c :: part) :: parts

/-- `strings.Split(s, sep)` for a separator of one character. -/
def Split (s : String) (sep : Char) : List String :=
  (splitChars sep s.data).map String.mk

/-- The body of the `if` in `SetName`: the name and the parts that exist. -/
def AWSInstance.named (inst : AWSInstance) (value : String) : AWSInstance :=
  let inst := { inst with Name := value }
  let nameParts := Split inst.Name '.'
  let inst :=
    if nameParts.length > 2 then { inst with Environment := nameParts.getD 2 "" }
    else inst
  let inst :=
    if nameParts.length > 1 then { inst with Stack := nameParts.getD 1 "" }
    else inst
  if nameParts.length > 0 then { inst with Cluster := nameParts.getD 0 "" }
  else inst

/-- The range loop of `SetName` over the tags; it stops at the first tag with the key
`Name` and a non-empty value. -/
def AWSInstance.setNameLoop (inst : AWSInstance) : List Tag → AWSInstance
  | [] => inst
  | tag :: rest =>
    if tag.Key = "Name" ∧ tag.Value.length > 0 then inst.named tag.Value
    else AWSInstance.setNameLoop inst rest

/-- `AWSInstance.SetName`. -/
def AWSInstance.SetName (inst : AWSInstance) (ec2Inst : Ec2Instance) : AWSInstance :=
  inst.setNameLoop ec2Inst.Tags

/-- `AWSInstance.Update`. -/
def AWSInstance.Update {K : Type} [DivisionRing K] (Pow : K → K → K) (e : InstanceEntity K)
    (ec2Inst : Ec2Instance) : InstanceEntity K :=
  let inst := { e.inst with
    InstanceID := ec2Inst.InstanceId
    InstanceType := ec2Inst.InstanceType
    State := ec2Inst.State }
  let inst := match ec2Inst.PublicIpAddress with
    | some ip => { inst with PublicIP := ip }
    | none => inst
  let inst := match ec2Inst.PrivateIpAddress with
    | some ip => { inst with PrivateIP := ip }
    | none => inst
  let inst := if HasPrefix inst.InstanceType "t2" then { inst with HasCredits := true } else inst
  let inst := inst.SetName ec2Inst
  let Scale := SetScale Pow ec2Inst
  { inst := inst
    Scale := Scale
    Geometry := some { HalfSize := ⟨Scale.y / 2, Scale.y / 2, Scale.z / 2⟩ } }

/-- A rounding-free stand-in for `math.Pow` on the rationals, for running `Update`
where the value of the power does not matter. -/
def firstArgument (x _y : ℚ) : ℚ := x

/-- An instance that was created as a `t2.micro`. -/
def burstableEntity : InstanceEntity ℚ :=
  { inst :=
      { zeroInstance with
        InstanceID := "i-1"
        InstanceType := "t2.micro"
        HasCredits := true
        State := "stopped" }
    Scale := ⟨1, 1, 1⟩
    Geometry := none }

/-- The record of instance `i-1` after it was resized to `m3.large`. -/
def resizedRecord : Ec2Instance :=
  { InstanceId := "i-1", InstanceType := "m3.large", State := "running",
    PublicIpAddress := none, PrivateIpAddress := some "10.0.0.1",
    Tags := [⟨"Owner", "ops"⟩, ⟨"Name", "web.app.prod.eu"⟩, ⟨"Name", "other.x.y"⟩] }

/-- A `t2.micro` record. -/
def microRecord : Ec2Instance :=
  { InstanceId := "i-2", InstanceType := "t2.micro", State := "running",
    PublicIpAddress := none, PrivateIpAddress := none, Tags := [⟨"Name", "web"⟩] }

/-- A record of a class that is not in the cost table. -/
def unknownRecord : Ec2Instance :=
  { InstanceId := "i-3", InstanceType := "x1.32xlarge", State := "running",
    PublicIpAddress := none, PrivateIpAddress := none, Tags := [] }

/-! ### `lib/state/idle.go` -/

/-- `Vector3.Add` of the vector library: the receiver plus the argument. -/
def Vector3.Add (v o : Vector3) : Vector3 :=
  ⟨v.x + o.x, v.y + o.y, v.z + o.z⟩

/-- `Vector3.Scale` of the vector library: the receiver times a scalar. -/
def Vector3.Scale (v : Vector3) (alpha : Float64) : Vector3 :=
  ⟨v.x * alpha, v.y * alpha, v.z * alpha⟩

/-- `Vector3.NewSub` of the vector library: a new vector, receiver minus argument. -/
def Vector3.NewSub (v o : Vector3) : Vector3 :=
  ⟨v.x - o.x, v.y - o.y, v.z - o.z⟩

/-- `Vector3.SquareLength` of the vector library. -/
def Vector3.SquareLength (v : Vector3) : Float64 :=
  v.x * v.x + v.y * v.y + v.z * v.z

/-- The comparison `v.Length() < bound`, where `Length()` is the square root of
`SquareLength()`: the root is below the bound exactly when the bound is positive and
the square length is below its square. -/
def Vector3.LengthLt (v : Vector3) (bound : Float64) : Bool :=
  decide (0 < bound ∧ v.SquareLength < bound * bound)

/-- `steering.NewSteeringOutput` of the steering library: both parts zero. -/
def NewSteeringOutput : SteeringOutput :=
  { linear := ⟨0, 0, 0⟩, angular := ⟨0, 0, 0⟩ }

/-- `SteeringOutput.SetAngular`. -/
def SteeringOutput.SetAngular (s : SteeringOutput) (v : Vector3) : SteeringOutput :=
  { s with angular := v }

/-- `Idle.Update`. The function `siblings` (called with the instance, the model and
`true`) and the constructor `NewCluster` (of which only the anchor argument varies)
belong to files of `lib/state` that are not at hand and are parameters. -/
def Idle.Update (siblings : AWSInstance → Model → Bool → List Vector3)
    (NewCluster : Vector3 → State) (w : World) : Option State :=
  let positions := siblings w.inst w.model true
  if positions.length < 2 then
    none
  else
    let midpoint : Vector3 := ⟨0, 0, 0⟩
    let midpoint := positions.foldl Vector3.Add midpoint
    let midpoint := midpoint.Scale (1 / (positions.length : Float64))
    if (midpoint.NewSub w.model.position).SquareLength >
        (w.model.Scale.x * w.model.Scale.x) * 2 then
      some (NewCluster midpoint)
    else
      none

/-- `Idle.Steering`. -/
def Idle.Steering (w : World) : Option SteeringOutput :=
  if w.inst.CPUUtilization < 5 then
    none
  else if w.body.Rotation.LengthLt (w.inst.CPUUtilization / 80) then
    let steer := NewSteeringOutput
    some (steer.SetAngular ⟨0, 1, 0⟩)
  else
    none

/-- `NewIdle`: the idle state as a value of the `State` interface; neither method
writes to the world. -/
def NewIdle (siblings : AWSInstance → Model → Bool → List Vector3)
    (NewCluster : Vector3 → State) : State :=
  .mk (fun w => (w, Idle.Update siblings NewCluster w)) (fun w => (w, Idle.Steering w))

/-- The arithmetic mean of a list of positions, component by component. -/
def centroid (positions : List Vector3) : Vector3 :=
  ⟨(positions.map (·.x)).sum / positions.length,
   (positions.map (·.y)).sum / positions.length,
   (positions.map (·.z)).sum / positions.length⟩

/-- Two siblings, at (10, 0, 0) and (30, 0, 0), for every instance. -/
def twoSiblings (_inst : AWSInstance) (_model : Model) (_running : Bool) : List Vector3 :=
  [⟨10, 0, 0⟩, ⟨30, 0, 0⟩]

/-- A world whose instance runs at 40 % load and whose body turns slowly. -/
def busyWorld : World :=
  { inst := { sampleInstance with cpuUtilization := 40 }
    model := { position := ⟨1, 2, 2⟩, Scale := ⟨4, 4, 4⟩ }
    body := { Rotation := ⟨0, 3 / 10, 0⟩, forceAccum := ⟨0, 0, 0⟩, torqueAccum := ⟨0, 0, 0⟩ } }

/-- The rational that a finite binary32 pattern denotes: sign bit, eight exponent
bits with bias 127 and 23 fraction bits (the patterns with all exponent bits set,
the infinities and NaN, denote no rational and are not meant). -/
def float32Value (bits : Nat) : ℚ :=
  let sign : ℚ := if bits / 2 ^ 31 % 2 = 1 then -1 else 1
  let E : Nat := bits / 2 ^ 23 % 256
  let m : Nat := bits % 2 ^ 23
  if E = 0 then sign * m * (2 : ℚ) ^ (-149 : Int)
  else sign * (2 ^ 23 + m) * (2 : ℚ) ^ ((E : Int) - 150)

/-! ## Theorems -/

/-- C1: `Health` is 1 for an instance that is not running; for a running one it
is 0 when the instance has credits and its credit balance is below 10, and
`1 - cpuUtilization / 100` otherwise. -/
theorem Health_cases (inst : AWSInstance) :
    (inst.State ≠ "running" → inst.Health = 1) ∧
    (inst.State = "running" → inst.HasCredits = true → inst.CPUCreditBalance < 10 →
      inst.Health = 0) ∧
    (inst.State = "running" → ¬ (inst.HasCredits = true ∧ inst.CPUCreditBalance < 10) →
      inst.Health = 1 - inst.CPUUtilization / 100) := by
  refine ⟨fun h => ?_, fun h hc hb => ?_, fun h hn => ?_⟩
  · simp [AWSInstance.Health, h]
  · simp [AWSInstance.Health, h, hc, hb]
  · have hn2 : inst.HasCredits = true → ¬ inst.CPUCreditBalance < 10 := fun a b => hn ⟨a, b⟩
    by_cases hc : inst.HasCredits = true
    · have := hn2 hc
      simp [AWSInstance.Health, h, hc, this]
    · simp [AWSInstance.Health, h, hc]

/-- C1 (witness): a stopped instance, a running burstable instance with 5 credits and
a running instance at 50 % load. -/
theorem Health_cases_witness :
    ({ sampleInstance with State := "stopped", cpuUtilization := 50 } : AWSInstance).Health = 1 ∧
    ({ sampleInstance with HasCredits := true, cpuCreditBalance := 5 } : AWSInstance).Health = 0 ∧
    ({ sampleInstance with cpuUtilization := 50 } : AWSInstance).Health = 1 - 50 / 100 :=
  ⟨(Health_cases _).1 (by decide),
   (Health_cases _).2.1 (by decide) rfl (by norm_num [AWSInstance.CPUCreditBalance, sampleInstance]),
   (Health_cases _).2.2 (by decide) (by simp [sampleInstance])⟩

/-- C2 (failing input): for a stopped instance whose CPU reading is 50 %, the HEALTH
field that `Level.Draw` writes is 1/2, while `AWSInstance.Health` of the same state
and readings is 1. -/
theorem Level_Draw_health_stopped :
    Level.Draw 7 (fun _ => stoppedInstance) [(3, unitModel)] =
      (7, [ .INST_ENTITY_ID 3, .INST_SET_POSITION ⟨0, 0, 0⟩, .INST_SET_ORIENTATION ⟨1, 0, 0, 0⟩,
            .INST_SET_TYPE 1, .INST_SET_SCALE ⟨1, 1, 1⟩, .INST_SET_HEALTH (1 / 2) ]) ∧
    ({ sampleInstance with State := "stopped", cpuUtilization := 50 } : AWSInstance).Health = 1 := by
  refine ⟨?_, ?_⟩
  · simp only [Level.Draw, Level.drawEntity, Level.drawHealth, stoppedInstance, unitModel,
      List.flatMap_cons, List.flatMap_nil, List.append_nil]
    have hs : ¬ ("stopped" = "running") := by decide
    norm_num [hs]
  · simp [AWSInstance.Health, sampleInstance]

/-- C3 (counterexample): storing a CPU utilisation of 150 in a running instance gives
the health -1/2, and storing -50 gives 3/2: the value is not clamped. -/
theorem Health_not_clamped :
    ¬ (0 ≤ (sampleInstance.SetCPUUtilization 150).Health ∧
        (sampleInstance.SetCPUUtilization 150).Health ≤ 1) ∧
    ¬ (0 ≤ (sampleInstance.SetCPUUtilization (-50)).Health ∧
        (sampleInstance.SetCPUUtilization (-50)).Health ≤ 1) := by
  have h1 : (sampleInstance.SetCPUUtilization 150).Health = -1 / 2 := by
    simp [AWSInstance.Health, AWSInstance.SetCPUUtilization, AWSInstance.CPUUtilization,
      sampleInstance]
    norm_num
  have h2 : (sampleInstance.SetCPUUtilization (-50)).Health = 3 / 2 := by
    simp [AWSInstance.Health, AWSInstance.SetCPUUtilization, AWSInstance.CPUUtilization,
      sampleInstance]
    norm_num
  rw [h1, h2]
  norm_num

/-- C3 (amended): when the stored CPU utilisation lies between 0 and 100, the health
lies between 0 and 1. -/
theorem Health_range (inst : AWSInstance) (h0 : 0 ≤ inst.CPUUtilization)
    (h100 : inst.CPUUtilization ≤ 100) : 0 ≤ inst.Health ∧ inst.Health ≤ 1 := by
  unfold AWSInstance.Health
  simp only []
  split_ifs
  · norm_num
  · norm_num
  · constructor
    · linarith [div_le_one_of_le₀ h100 (by norm_num : (0 : ℚ) ≤ 100)]
    · linarith [div_nonneg h0 (by norm_num : (0 : ℚ) ≤ 100)]

/-- C3 (amended, witness): a running instance at 50 % load. -/
theorem Health_range_witness :
    0 ≤ (sampleInstance.SetCPUUtilization 50).Health ∧
      (sampleInstance.SetCPUUtilization 50).Health ≤ 1 :=
  Health_range (sampleInstance.SetCPUUtilization 50)
    (by norm_num [AWSInstance.SetCPUUtilization, AWSInstance.CPUUtilization])
    (by norm_num [AWSInstance.SetCPUUtilization, AWSInstance.CPUUtilization])

/-- The throttle with a state present: it never panics, keeps a state present, fires
exactly when the accumulated remainder exceeds 1/10, and then resets it to -1/10. -/
theorem throttle_of_state (s : AI) (w : World) (elapsed : Float64) (st : State)
    (hs : s.state = some st) :
    ∃ s1 w1, AI.throttle s w elapsed = some (s1, w1, decide (s.reminder + elapsed > 1 / 10)) ∧
      s1.state.isSome = true ∧
      s1.reminder = if s.reminder + elapsed > 1 / 10 then -(1 / 10) else s.reminder + elapsed := by
  unfold AI.throttle
  by_cases h : s.reminder + elapsed > 1 / 10
  · simp only [h, if_true, hs, decide_True]
    cases hn : (st.Update w).2 with
    | none => exact ⟨_, _, rfl, rfl, rfl⟩
    | some next => exact ⟨_, _, rfl, rfl, rfl⟩
  · simp only [h, if_false, decide_False]
    exact ⟨_, _, rfl, by simp [hs], rfl⟩

/-- The steering block keeps the remainder, leaves a state present and clamps the
model to the ground. -/
theorem steer_spec (lib : Lib) (s : AI) (w : World) :
    (AI.steer lib s w).1.state.isSome = true ∧
    (AI.steer lib s w).1.reminder = s.reminder ∧
    (AI.steer lib s w).2.model.position.y = (AI.steer lib s w).2.model.Scale.y / 2 := by
  simp [AI.steer]

/-- One call of `AI.Update` on a controller that has a state. -/
theorem Update_of_state (lib : Lib) (s : AI) (w : World) (elapsed : Float64)
    (hs : s.state.isSome = true) :
    ∃ s2 w2, AI.Update lib s w elapsed = some (s2, w2, decide (s.reminder + elapsed > 1 / 10)) ∧
      s2.state.isSome = true ∧
      s2.reminder = (if s.reminder + elapsed > 1 / 10 then -(1 / 10) else s.reminder + elapsed) ∧
      w2.model.position.y = w2.model.Scale.y / 2 := by
  obtain ⟨st, hst⟩ := Option.isSome_iff_exists.mp hs
  obtain ⟨s1, w1, h1, _, hr⟩ := throttle_of_state s w elapsed st hst
  obtain ⟨ha, hb, hc⟩ := steer_spec lib s1 w1
  refine ⟨(AI.steer lib s1 w1).1, (AI.steer lib s1 w1).2, ?_, ha, ?_, hc⟩
  · simp [AI.Update, h1]
  · rw [hb, hr]

/-- One more call preserves `ThrottleInv`. -/
theorem ThrottleInv_step (n : Nat) (reminder : Float64) (count : Nat)
    (h : ThrottleInv n reminder count) :
    ThrottleInv (n + 1)
      (if reminder + 1 / 60 > 1 / 10 then -(1 / 10) else reminder + 1 / 60)
      (if decide (reminder + 1 / 60 > 1 / 10) = true then count + 1 else count) := by
  rcases h with ⟨hn, hr, hc⟩ | ⟨q, r, hn, hr13, hr, hc⟩
  · subst hr hc
    interval_cases n
    all_goals first
      | (left; norm_num; done)
      | (right; exact ⟨0, 0, by norm_num⟩)
  · subst hr hc hn
    right
    by_cases h12 : r = 12
    · subst h12
      refine ⟨q + 1, 0, by omega, by omega, ?_, ?_⟩ <;> norm_num
    · have hr11 : (r : ℚ) ≤ 11 := by exact_mod_cast (by omega : r ≤ 11)
      have hcond : ¬ (-(1 / 10) + (r : ℚ) / 60 + 1 / 60 > 1 / 10) := by
        intro hgt
        linarith
      refine ⟨q, r + 1, by omega, by omega, ?_, ?_⟩
      · rw [if_neg hcond]
        push_cast
        ring
      · have hd : decide (-(1 / 10) + (r : ℚ) / 60 + 1 / 60 > 1 / 10) = false :=
          decide_eq_false hcond
        rw [hd]
        rfl

/-- The invariant holds along every run that starts from a controller with a state
and remainder 0, and such a run never panics. -/
theorem run_ThrottleInv (lib : Lib) (s : AI) (w : World) (hs : s.state.isSome = true)
    (hr : s.reminder = 0) (n : Nat) :
    ∃ s1 w1 count, AI.run lib (1 / 60) n s w = some (s1, w1, count) ∧
      s1.state.isSome = true ∧ ThrottleInv n s1.reminder count := by
  induction n with
  | zero =>
    refine ⟨s, w, 0, rfl, hs, Or.inl ⟨by norm_num, ?_, rfl⟩⟩
    simp [hr]
  | succ n ih =>
    obtain ⟨s1, w1, count, hrun, hs1, hinv⟩ := ih
    obtain ⟨s2, w2, hup, hs2, hrem, _⟩ := Update_of_state lib s1 w1 (1 / 60) hs1
    refine ⟨s2, w2,
      if decide (s1.reminder + 1 / 60 > 1 / 10) = true then count + 1 else count, ?_, hs2, ?_⟩
    · simp only [AI.run, hrun, hup]
    · rw [hrem]
      exact ThrottleInv_step n s1.reminder count hinv

/-- C4 (failing input): for every idle state, every rigid-body library and every
world, 60 consecutive calls `AI.Update(1/60)` on a fresh controller (one second of
simulated time) invoke `state.Update()` 5 times, while ⌊60 · (1/60) / 0.1⌋ = 10. -/
theorem AI_Update_sixty_calls (lib : Lib) (w : World) :
    (∃ s1 w1, AI.run lib (1 / 60) 60 (NewAI lib) w = some (s1, w1, 5)) ∧
    ⌊(60 : ℚ) * (1 / 60) / (1 / 10)⌋ = 10 := by
  constructor
  · obtain ⟨s1, w1, count, hrun, _, hinv⟩ := run_ThrottleInv lib (NewAI lib) w rfl rfl 60
    have hc : count = 5 := by
      rcases hinv with ⟨hn, _, _⟩ | ⟨q, r, hn, hr13, _, hc⟩
      · omega
      · omega
    subst hc
    exact ⟨s1, w1, hrun⟩
  · norm_num

/-- C5: a call `AI.Update(elapsed)` that does not hit the nil-state panic (the
controller has a state, or the throttle does not fire) returns, and afterwards the
y-position of the model is half of the y-scale. -/
theorem Update_ground_clamp (lib : Lib) (s : AI) (w : World) (elapsed : Float64)
    (h : s.state.isSome = true ∨ ¬ (s.reminder + elapsed > 1 / 10)) :
    ∃ s1 w1 called, AI.Update lib s w elapsed = some (s1, w1, called) ∧
      w1.model.position.y = w1.model.Scale.y / 2 := by
  rcases h with hs | hn
  · obtain ⟨s2, w2, hup, _, _, hy⟩ := Update_of_state lib s w elapsed hs
    exact ⟨s2, w2, _, hup, hy⟩
  · refine ⟨(AI.steer lib { s with reminder := s.reminder + elapsed } w).1,
      (AI.steer lib { s with reminder := s.reminder + elapsed } w).2, false, ?_,
      (steer_spec lib { s with reminder := s.reminder + elapsed } w).2.2⟩
    have ht : AI.throttle s w elapsed =
        some ({ s with reminder := s.reminder + elapsed }, w, false) := by
      unfold AI.throttle
      simp only [hn, if_false]
    simp only [AI.Update, ht]

/-- C5 (witness): a pushing state on a cube of side 4 floating at height 9. -/
theorem Update_ground_clamp_witness :
    ∃ s1 w1 called,
      AI.Update sampleLib { state := some pushState, reminder := 0 } sampleWorld (1 / 60) =
        some (s1, w1, called) ∧
      w1.model.position.y = w1.model.Scale.y / 2 :=
  Update_ground_clamp sampleLib { state := some pushState, reminder := 0 } sampleWorld (1 / 60)
    (Or.inl rfl)

/-- C6 (failing input): with the clients 1 and 2 registered and the send to client 1
failing, `Write` calls `Update` and `Close` on client 1, removes it and returns the
error; client 2 stays registered and `Update` is never called on it. -/
theorem Write_stops_at_first_error (cmd : Nat) (data : Bytes) :
    clientHub.Write brokenFirst ⟨[1, 2]⟩ cmd data =
      { network := ⟨[2]⟩, n := 0, err := some "write: broken pipe",
        events := [.Update 1 data cmd, .Close 1] } ∧
    HubEvent.Update 2 data cmd ∉ (clientHub.Write brokenFirst ⟨[1, 2]⟩ cmd data).events := by
  have h : clientHub.Write brokenFirst ⟨[1, 2]⟩ cmd data =
      { network := ⟨[2]⟩, n := 0, err := some "write: broken pipe",
        events := [.Update 1 data cmd, .Close 1] } := by
    simp [clientHub.Write, writeLoop, brokenFirst, clientHub.remove]
  refine ⟨h, ?_⟩
  rw [h]
  simp

/-- The layout of one record: `serialize` appends the id, position, orientation,
model-type (when there is a graphic) and scale fields, in this order. -/
theorem serialize_layout (buf : Bytes) (o : GameObject) (h : o.graphic ≠ some Value.other) :
    serialize buf o = some (buf ++
      ((1 :: le32 (float32OfNat o.id)) ++
       (2 :: (le32 (float32OfFloat64 o.transform.position.x) ++
              le32 (float32OfFloat64 o.transform.position.y) ++
              le32 (float32OfFloat64 o.transform.position.z))) ++
       (3 :: (le32 (float32OfFloat64 o.transform.orientation.R) ++
              le32 (float32OfFloat64 o.transform.orientation.I) ++
              le32 (float32OfFloat64 o.transform.orientation.J) ++
              le32 (float32OfFloat64 o.transform.orientation.K))) ++
       (match o.graphic with
        | some model => 4 :: (payload model).getD []
        | none => []) ++
       (5 :: (le32 (float32OfFloat64 o.transform.scale.x) ++
              le32 (float32OfFloat64 o.transform.scale.y) ++
              le32 (float32OfFloat64 o.transform.scale.z))))) := by
  cases hg : o.graphic with
  | none =>
    simp [serialize, binaryStream, payload, hg, instEntityID, instPosition, instOrientation,
      instScale]
  | some model =>
    have hm : model ≠ Value.other := fun hc => h (by rw [hg, hc])
    cases model <;>
      simp_all [serialize, binaryStream, payload, instEntityID, instPosition, instOrientation,
        instType, instScale]

/-- Serialising into a buffer appends what serialising into an empty buffer gives. -/
theorem serialize_append (buf : Bytes) (o : GameObject) (h : o.graphic ≠ some Value.other) :
    serialize buf o = some (buf ++ serialized o) := by
  rw [serialize_layout buf o h, serialized, serialize_layout [] o h]
  simp

/-- The loop of `level.draw`, when every model has a type that `binaryStream` knows. -/
theorem drawLoop_eq (graphics : List Graphic)
    (h : ∀ g ∈ graphics, g.gameObject.graphic ≠ some Value.other) (buf : Bytes) :
    drawLoop buf graphics =
      some (buf ++ (graphics.filter drawn).flatMap (fun g => serialized g.gameObject),
        graphics.map Graphic.SetRendered) := by
  induction graphics generalizing buf with
  | nil => simp [drawLoop]
  | cons g rest ih =>
    have hg : g.gameObject.graphic ≠ some Value.other := h g (List.mem_cons_self _ _)
    have hrest : ∀ x ∈ rest, x.gameObject.graphic ≠ some Value.other :=
      fun x hx => h x (List.mem_cons_of_mem _ hx)
    obtain ⟨gameObject, rendered⟩ := g
    cases rendered with
    | false =>
      simp [drawLoop, Graphic.IsRendered, serialize_append _ _ hg, ih hrest, drawn]
    | true =>
      cases hb : gameObject.body with
      | none =>
        simp [drawLoop, Graphic.IsRendered, ih hrest, drawn, hb, Graphic.SetRendered]
      | some b =>
        cases ha : b.awake with
        | false =>
          simp [drawLoop, Graphic.IsRendered, ih hrest, drawn, hb, ha, Graphic.SetRendered]
        | true =>
          simp [drawLoop, Graphic.IsRendered, serialize_append _ _ hg, ih hrest, drawn, hb, ha,
            Graphic.SetRendered]

/-- The loop of `level.fullDraw`, when every model has a type that `binaryStream`
knows. -/
theorem fullDrawLoop_eq (graphics : List Graphic)
    (h : ∀ g ∈ graphics, g.gameObject.graphic ≠ some Value.other) (buf : Bytes) :
    fullDrawLoop buf graphics =
      some (buf ++ graphics.flatMap (fun g => serialized g.gameObject)) := by
  induction graphics generalizing buf with
  | nil => simp [fullDrawLoop]
  | cons g rest ih =>
    have hg : g.gameObject.graphic ≠ some Value.other := h g (List.mem_cons_self _ _)
    have hrest : ∀ x ∈ rest, x.gameObject.graphic ≠ some Value.other :=
      fun x hx => h x (List.mem_cons_of_mem _ hx)
    simp [fullDrawLoop, serialize_append _ _ hg, ih hrest]

/-- The loop of `level.drawDead`: one ENTITY_ID field for each id. -/
theorem drawDeadLoop_eq (ids : List Nat) (buf : Bytes) :
    drawDeadLoop buf ids =
      some (buf ++ ids.flatMap (fun id => 1 :: le32 (float32OfNat id))) := by
  induction ids generalizing buf with
  | nil => simp [drawDeadLoop]
  | cons id rest ih => simp [drawDeadLoop, binaryStream, payload, instEntityID, ih]

/-- C7: when every model has a type that `binaryStream` knows, `level.draw` returns
the 4-byte frame header followed by the serialisation of exactly the graphics that
are not yet rendered or whose object has an awake body, each once and in list order;
afterwards every graphic is marked as rendered. -/
theorem draw_delta (currentFrame : Nat) (list : ObjectList)
    (h : ∀ g ∈ list.graphics, g.gameObject.graphic ≠ some Value.other) :
    level.draw currentFrame list =
      some (frameHeader currentFrame ++
          (list.graphics.filter drawn).flatMap (fun g => serialized g.gameObject),
        { list with graphics := list.graphics.map Graphic.SetRendered }) ∧
    (frameHeader currentFrame).length = 4 := by
  refine ⟨?_, rfl⟩
  simp [level.draw, ObjectList.Graphics, drawLoop_eq list.graphics h]

/-- C7 (witness): the sample list at frame 12. -/
theorem draw_delta_witness :
    level.draw 12 sampleList =
      some (frameHeader 12 ++
          (sampleList.graphics.filter drawn).flatMap (fun g => serialized g.gameObject),
        { sampleList with graphics := sampleList.graphics.map Graphic.SetRendered }) ∧
    (frameHeader 12).length = 4 :=
  draw_delta 12 sampleList (by decide)

/-- C8: when every model has a type that `binaryStream` knows, `level.fullDraw`
returns the 4-byte frame header followed by the serialisation of the object of every
graphic, each once and in list order, whatever the rendered flags and the bodies are,
and it leaves the object list as it was. -/
theorem fullDraw_snapshot (currentFrame : Nat) (list : ObjectList)
    (h : ∀ g ∈ list.graphics, g.gameObject.graphic ≠ some Value.other) :
    level.fullDraw currentFrame list =
      some (frameHeader currentFrame ++
          list.graphics.flatMap (fun g => serialized g.gameObject), list) ∧
    (frameHeader currentFrame).length = 4 := by
  refine ⟨?_, rfl⟩
  simp [level.fullDraw, ObjectList.Graphics, fullDrawLoop_eq list.graphics h]

/-- C8 (witness): the sample list at frame 12. -/
theorem fullDraw_snapshot_witness :
    level.fullDraw 12 sampleList =
      some (frameHeader 12 ++
          sampleList.graphics.flatMap (fun g => serialized g.gameObject), sampleList) ∧
    (frameHeader 12).length = 4 :=
  fullDraw_snapshot 12 sampleList (by decide)

/-- C9: `level.drawDead` returns the 4-byte frame header followed by one field per
deleted id, in order, each the tag byte 1 and the id as a little-endian 32-bit float,
and nothing else; it leaves the deleted list empty, so that a second `drawDead` right
after it returns the header alone. -/
theorem drawDead_frame (currentFrame : Nat) (list : ObjectList) :
    level.drawDead currentFrame list =
      some (frameHeader currentFrame ++
          list.deleted.flatMap (fun id => 1 :: le32 (float32OfNat id)),
        { list with deleted := [] }) ∧
    (frameHeader currentFrame).length = 4 ∧
    level.drawDead currentFrame { list with deleted := [] } =
      some (frameHeader currentFrame, { list with deleted := [] }) := by
  refine ⟨?_, rfl, ?_⟩
  · simp [level.drawDead, ObjectList.Deleted, ObjectList.ClearDeleted, drawDeadLoop_eq]
  · simp [level.drawDead, ObjectList.Deleted, ObjectList.ClearDeleted, drawDeadLoop_eq]

/-- The binary logarithm of a number between two consecutive powers of two. -/
theorem log2_eq_of_bounds (n e : Nat) (hlo : 2 ^ e ≤ n) (hhi : n < 2 ^ (e + 1)) :
    Nat.log2 n = e := by
  have h0 : n ≠ 0 := by
    have := Nat.two_pow_pos e
    omega
  have h1 : Nat.log2 n < e + 1 := (Nat.log2_lt h0).2 hhi
  have h2 : ¬ Nat.log2 n < e := fun hc => by
    have := (Nat.log2_lt h0).1 hc
    omega
  omega

/-- Four little-endian bytes determine the 32-bit pattern they were made from. -/
theorem le32Decode_le32 (bits : Nat) (h : bits < 2 ^ 32) : le32Decode (le32 bits) = bits := by
  simp only [le32, le32Decode]
  omega

/-- The pattern of an id up to 2^24 fits in 32 bits. -/
theorem float32OfNat_lt (n : Nat) (h : n ≤ 2 ^ 24) : float32OfNat n < 2 ^ 32 := by
  unfold float32OfNat
  by_cases h0 : n = 0
  · simp [h0]
  · simp only [h0, if_false]
    have hlt : n < 2 ^ 25 := by omega
    have he : Nat.log2 n < 25 := (Nat.log2_lt h0).2 hlt
    split_ifs with h1 h2
    · have hup : n < 2 ^ (Nat.log2 n + 1) := Nat.lt_log2_self
      have : n * 2 ^ (23 - Nat.log2 n) < 2 ^ (Nat.log2 n + 1) * 2 ^ (23 - Nat.log2 n) :=
        Nat.mul_lt_mul_of_pos_right hup (Nat.two_pow_pos _)
      rw [← pow_add] at this
      have e2 : Nat.log2 n + 1 + (23 - Nat.log2 n) = 24 := by omega
      rw [e2] at this
      have : (Nat.log2 n + 126) * 2 ^ 23 ≤ 149 * 2 ^ 23 := Nat.mul_le_mul_right _ (by omega)
      omega
    · norm_num
    · push_neg at h2
      omega

/-- Halving 2^24 + 1 rounds down to 2^23 (tie to even). -/
theorem roundShift_16777217 : roundShift 16777217 1 = 8388608 := by decide

/-- Halving 2^24 is exact. -/
theorem roundShift_16777216 : roundShift 16777216 1 = 8388608 := by decide

/-- The pattern of a number above 2^24, given its binary logarithm. -/
theorem float32OfNat_of_log2 (n e : Nat) (he : Nat.log2 n = e) (h0 : n ≠ 0) (h23 : 23 < e)
    (hfin : (e + 126) * 2 ^ 23 + roundShift n (e - 23) < 0x7F800000) :
    float32OfNat n = (e + 126) * 2 ^ 23 + roundShift n (e - 23) := by
  unfold float32OfNat
  rw [he, if_neg h0, if_neg (Nat.not_le.mpr h23)]
  have hge : ¬ ((e + 126) * 2 ^ 23 + roundShift n (e - 23) ≥ 0x7F800000) := Nat.not_le.mpr hfin
  simp only [hge, if_false]

/-- The id 2^24 + 1 is rounded to the float 2^24. -/
theorem float32OfNat_16777217 : float32OfNat 16777217 = 0x4B800000 := by
  have hl : Nat.log2 16777217 = 24 := log2_eq_of_bounds _ _ (by norm_num) (by norm_num)
  rw [float32OfNat_of_log2 16777217 24 hl (by norm_num) (by norm_num)
    (by rw [show 24 - 23 = 1 from rfl, roundShift_16777217]; norm_num)]
  rw [show 24 - 23 = 1 from rfl, roundShift_16777217]
  norm_num

/-- The id 2^24 is the float 2^24. -/
theorem float32OfNat_16777216 : float32OfNat 16777216 = 0x4B800000 := by
  have hl : Nat.log2 16777216 = 24 := log2_eq_of_bounds _ _ (by norm_num) (by norm_num)
  rw [float32OfNat_of_log2 16777216 24 hl (by norm_num) (by norm_num)
    (by rw [show 24 - 23 = 1 from rfl, roundShift_16777216]; norm_num)]
  rw [show 24 - 23 = 1 from rfl, roundShift_16777216]
  norm_num

/-- The id 2^24 survives the round trip. -/
theorem float32ToNat_two_pow_24 : float32ToNat (float32OfNat (2 ^ 24)) = 2 ^ 24 := by
  rw [show (2 : Nat) ^ 24 = 16777216 from by norm_num, float32OfNat_16777216]
  decide

/-- Every id up to 2^24 survives the cast to float32 and back. -/
theorem float32ToNat_float32OfNat (n : Nat) (h : n ≤ 2 ^ 24) :
    float32ToNat (float32OfNat n) = n := by
  by_cases h0 : n = 0
  · subst h0; decide
  by_cases h24 : n = 2 ^ 24
  · subst h24
    have hl : Nat.log2 (2 ^ 24) = 24 := log2_eq_of_bounds _ _ (by norm_num) (by norm_num)
    exact float32ToNat_two_pow_24
  have hlt : n < 2 ^ 24 := by omega
  have he : Nat.log2 n < 24 := (Nat.log2_lt h0).2 hlt
  have hlo : 2 ^ Nat.log2 n ≤ n := Nat.log2_self_le h0
  have hup : n < 2 ^ (Nat.log2 n + 1) := Nat.lt_log2_self
  obtain ⟨k, hk⟩ : ∃ k, k = 23 - Nat.log2 n := ⟨_, rfl⟩
  have hek : Nat.log2 n + k = 23 := by omega
  have ha_lo : 2 ^ 23 ≤ n * 2 ^ k := by
    calc 2 ^ 23 = 2 ^ Nat.log2 n * 2 ^ k := by rw [← pow_add, hek]
      _ ≤ n * 2 ^ k := Nat.mul_le_mul_right _ hlo
  have ha_hi : n * 2 ^ k < 2 ^ 24 := by
    calc n * 2 ^ k < 2 ^ (Nat.log2 n + 1) * 2 ^ k :=
          Nat.mul_lt_mul_of_pos_right hup (Nat.two_pow_pos _)
      _ = 2 ^ 24 := by rw [← pow_add]; congr 1; omega
  have hbits : float32OfNat n = (Nat.log2 n + 126) * 2 ^ 23 + n * 2 ^ k := by
    unfold float32OfNat
    simp only [h0, if_false]
    rw [if_pos (by omega), hk]
  rw [hbits]
  unfold float32ToNat
  generalize hA : n * 2 ^ k = A at ha_lo ha_hi
  have hE : ((Nat.log2 n + 126) * 2 ^ 23 + A) / 2 ^ 23 % 256 = Nat.log2 n + 127 := by
    omega
  have hm : ((Nat.log2 n + 126) * 2 ^ 23 + A) % 2 ^ 23 = A - 2 ^ 23 := by
    omega
  simp only [hE, hm]
  have hE0 : ¬ (Nat.log2 n + 127 = 0) := by omega
  have h1 : 2 ^ 23 + (A - 2 ^ 23) = A := Nat.add_sub_cancel' ha_lo
  rw [if_neg hE0, h1, ← hA]
  by_cases he23 : Nat.log2 n = 23
  · have hk0 : k = 0 := by omega
    rw [if_pos (by omega), he23, hk0]
    norm_num
  · have hE1 : ¬ (150 ≤ Nat.log2 n + 127) := by omega
    have h2 : 150 - (Nat.log2 n + 127) = k := by omega
    rw [if_neg hE1, h2]
    exact Nat.mul_div_cancel _ (Nat.two_pow_pos _)


/-- C11 (counterexample): the distinct ids 16777217 and 16777216 produce the same
ENTITY_ID field, and reading the field of 16777217 back gives 16777216. -/
theorem entity_id_collision :
    binaryStream [] instEntityID (.ID 16777217) = binaryStream [] instEntityID (.ID 16777216) ∧
    float32ToNat (float32OfNat 16777217) ≠ 16777217 := by
  constructor
  · simp only [binaryStream, payload, float32OfNat_16777217, float32OfNat_16777216]
  · rw [float32OfNat_16777217]
    decide

/-- C11 (amended): for ids up to 2^24 = 16777216, the ENTITY_ID field is the tag
byte 1 followed by four bytes from which the id is read back exactly, and two such
ids with the same field are equal. -/
theorem entity_id_roundtrip (id id2 : Nat) (h : id ≤ 2 ^ 24) (h2 : id2 ≤ 2 ^ 24) :
    (∃ bytes, binaryStream [] instEntityID (.ID id) = some (1 :: bytes) ∧
      float32ToNat (le32Decode bytes) = id) ∧
    (binaryStream [] instEntityID (.ID id) = binaryStream [] instEntityID (.ID id2) →
      id = id2) := by
  have key : ∀ n, n ≤ 2 ^ 24 → float32ToNat (le32Decode (le32 (float32OfNat n))) = n := by
    intro n hn
    rw [le32Decode_le32 _ (float32OfNat_lt n hn), float32ToNat_float32OfNat n hn]
  refine ⟨⟨le32 (float32OfNat id), ?_, key id h⟩, fun heq => ?_⟩
  · simp [binaryStream, payload, instEntityID]
  · have hb : le32 (float32OfNat id) = le32 (float32OfNat id2) := by
      simpa [binaryStream, payload, instEntityID] using heq
    rw [← key id h, ← key id2 h2, hb]

/-- C11 (amended, witness): the ids 5 and 7. -/
theorem entity_id_roundtrip_witness :
    (∃ bytes, binaryStream [] instEntityID (.ID 5) = some (1 :: bytes) ∧
      float32ToNat (le32Decode bytes) = 5) ∧
    (binaryStream [] instEntityID (.ID 5) = binaryStream [] instEntityID (.ID 7) →
      5 = 7) :=
  entity_id_roundtrip 5 7 (by norm_num) (by norm_num)

/-- `SetName` only writes the name, cluster, stack and environment. -/
theorem setNameLoop_HasCredits (inst : AWSInstance) (tags : List Tag) :
    (inst.setNameLoop tags).HasCredits = inst.HasCredits := by
  induction tags with
  | nil => rfl
  | cons tag rest ih =>
    unfold AWSInstance.setNameLoop
    split_ifs
    · unfold AWSInstance.named
      simp only []
      split_ifs <;> rfl
    · exact ih

/-- `SetName` does not touch the instance type. -/
theorem setNameLoop_InstanceType (inst : AWSInstance) (tags : List Tag) :
    (inst.setNameLoop tags).InstanceType = inst.InstanceType := by
  induction tags with
  | nil => rfl
  | cons tag rest ih =>
    unfold AWSInstance.setNameLoop
    split_ifs
    · unfold AWSInstance.named
      simp only []
      split_ifs <;> rfl
    · exact ih

/-- After `Update` the instance type is the one of the record. -/
theorem Update_InstanceType {K : Type} [DivisionRing K] (Pow : K → K → K)
    (e : InstanceEntity K) (ec2Inst : Ec2Instance) :
    (AWSInstance.Update Pow e ec2Inst).inst.InstanceType = ec2Inst.InstanceType := by
  unfold AWSInstance.Update AWSInstance.SetName
  simp only [setNameLoop_InstanceType]
  cases ec2Inst.PublicIpAddress <;> cases ec2Inst.PrivateIpAddress <;>
    cases hp : HasPrefix ec2Inst.InstanceType "t2" <;> simp [hp]

/-- What `Update` leaves in `HasCredits`: the old flag, or true for a `t2` class. -/
theorem Update_HasCredits {K : Type} [DivisionRing K] (Pow : K → K → K) (e : InstanceEntity K)
    (ec2Inst : Ec2Instance) :
    (AWSInstance.Update Pow e ec2Inst).inst.HasCredits =
      (e.inst.HasCredits || HasPrefix ec2Inst.InstanceType "t2") := by
  unfold AWSInstance.Update AWSInstance.SetName
  simp only [setNameLoop_HasCredits]
  cases ec2Inst.PublicIpAddress <;> cases ec2Inst.PrivateIpAddress <;>
    cases hp : HasPrefix ec2Inst.InstanceType "t2" <;> simp [hp]

/-- C12 (failing input): an instance that had credits as a `t2.micro` and is updated
from a record of class `m3.large` still has `HasCredits` set, although `m3.large`
does not begin with `t2`. -/
theorem Update_keeps_HasCredits :
    (AWSInstance.Update firstArgument burstableEntity resizedRecord).inst.HasCredits = true ∧
    (AWSInstance.Update firstArgument burstableEntity resizedRecord).inst.InstanceType =
      "m3.large" ∧
    HasPrefix resizedRecord.InstanceType "t2" = false := by
  refine ⟨?_, ?_, by decide⟩
  · rw [Update_HasCredits]
    decide
  · rw [Update_InstanceType]
    rfl

/-- A key that the lookup finds is paired with its value in the list. -/
theorem mem_of_lookup {α β : Type} [BEq α] [LawfulBEq α] (k : α) (v : β) (l : List (α × β))
    (h : l.lookup k = some v) : (k, v) ∈ l := by
  induction l with
  | nil => simp at h
  | cons p rest ih =>
    obtain ⟨a, b⟩ := p
    by_cases hk : k = a
    · subst hk
      simp [List.lookup] at h
      simp [h]
    · have hne : (k == a) = false := by simpa using hk
      simp only [List.lookup, hne] at h
      exact List.mem_cons_of_mem _ (ih h)

/-- Every cost in the table is positive. -/
theorem typeToCost_pos (key : String) (c : ℚ) (h : typeToCost key = some c) : 0 < c := by
  have hmem := mem_of_lookup key c typeToCostEntries h
  have hall : ∀ p ∈ typeToCostEntries, 0 < p.2 := by
    intro p hp
    simp only [typeToCostEntries, List.mem_cons, List.mem_singleton, List.not_mem_nil,
      or_false] at hp
    rcases hp with h | h | h | h | h | h | h | h | h | h | h <;> rw [h] <;> norm_num
  exact hall (key, c) hmem

/-- The cube of the real cube root. -/
theorem rpow_third_cube (x : ℝ) (hx : 0 < x) : (x ^ ((1 : ℝ) / 3)) ^ 3 = x := by
  rw [← Real.rpow_natCast, ← Real.rpow_mul hx.le]
  norm_num

/-- C14 (counterexample): for a class that is not in the cost table the side is 10,
which is not the value `(0.001 * 10000) ^ (1/3)` of the cost formula at the cost
0.001 (the cube of that value is 10, the cube of 10 is 1000). -/
theorem SetScale_unknown_not_formula :
    typeToCost unknownRecord.InstanceType = none ∧
    (SetScale (fun x y : ℝ => x ^ y) unknownRecord).x = 10 ∧
    (SetScale (fun x y : ℝ => x ^ y) unknownRecord).x ≠
      ((0.001 : ℝ) * 10000) ^ ((1 : ℝ) / 3) := by
  have hnone : typeToCost unknownRecord.InstanceType = none := by decide
  have hx : (SetScale (fun x y : ℝ => x ^ y) unknownRecord).x = 10 := by
    simp only [SetScale, hnone]
  refine ⟨hnone, hx, ?_⟩
  rw [hx]
  intro heq
  have hcube := rpow_third_cube ((0.001 : ℝ) * 10000) (by norm_num)
  rw [← heq] at hcube
  norm_num at hcube

/-- C14 (amended): for every class that is not in the cost table, `SetScale` sets
the scale to the literal `(10, 10, 10)`, whatever `math.Pow` computes. -/
theorem SetScale_unknown {K : Type} [DivisionRing K] (Pow : K → K → K) (ec2Inst : Ec2Instance)
    (h : typeToCost ec2Inst.InstanceType = none) :
    SetScale Pow ec2Inst = ⟨10, 10, 10⟩ := by
  simp only [SetScale, h]

/-- C14 (amended, witness): the class `x1.32xlarge`. -/
theorem SetScale_unknown_witness :
    SetScale firstArgument unknownRecord = ⟨10, 10, 10⟩ :=
  SetScale_unknown firstArgument unknownRecord (by decide)

/-- C19: after `Update`, for every record and whatever `math.Pow` computes, the
collision geometry is a rectangle whose half-size is half of the model scale in
each of the three components. -/
theorem Update_half_size {K : Type} [DivisionRing K] (Pow : K → K → K) (e : InstanceEntity K)
    (ec2Inst : Ec2Instance) :
    ∃ half : Vector3In K,
      (AWSInstance.Update Pow e ec2Inst).Geometry = some { HalfSize := half } ∧
      half.x = (AWSInstance.Update Pow e ec2Inst).Scale.x / 2 ∧
      half.y = (AWSInstance.Update Pow e ec2Inst).Scale.y / 2 ∧
      half.z = (AWSInstance.Update Pow e ec2Inst).Scale.z / 2 := by
  refine ⟨_, rfl, ?_, rfl, rfl⟩
  show (SetScale Pow ec2Inst).y / 2 = (SetScale Pow ec2Inst).x / 2
  unfold SetScale
  cases typeToCost ec2Inst.InstanceType <;> rfl

/-- The loop of `SetName` stops at the first `Name` tag with a non-empty value. -/
theorem setNameLoop_first (inst : AWSInstance) (pre post : List Tag) (value : String)
    (hpre : ∀ t ∈ pre, ¬ (t.Key = "Name" ∧ t.Value.length > 0)) (hv : value.length > 0) :
    inst.setNameLoop (pre ++ ⟨"Name", value⟩ :: post) = inst.named value := by
  induction pre with
  | nil =>
    have hc : (Tag.mk "Name" value).Key = "Name" ∧ (Tag.mk "Name" value).Value.length > 0 :=
      ⟨rfl, hv⟩
    show (if (Tag.mk "Name" value).Key = "Name" ∧ (Tag.mk "Name" value).Value.length > 0
      then inst.named (Tag.mk "Name" value).Value else inst.setNameLoop post) = inst.named value
    rw [if_pos hc]
  | cons t rest ih =>
    have ht : ¬ (t.Key = "Name" ∧ t.Value.length > 0) := hpre t (List.mem_cons_self _ _)
    simp only [List.cons_append, AWSInstance.setNameLoop]
    rw [if_neg ht]
    exact ih (fun x hx => hpre x (List.mem_cons_of_mem _ hx))

/-- A list of characters without the separator is a single piece. -/
theorem splitChars_of_not_mem (sep : Char) (cs : List Char) (h : sep ∉ cs) :
    splitChars sep cs = [cs] := by
  induction cs with
  | nil => rfl
  | cons c rest ih =>
    have hc : ¬ c = sep := fun hc => h (by rw [hc]; exact List.mem_cons_self _ _)
    have hrest : sep ∉ rest := fun hm => h (List.mem_cons_of_mem _ hm)
    simp only [splitChars, if_neg hc, ih hrest]

/-- C15: when the first tag with the key `Name` and a non-empty value has a value with
at least three parts between dots, `SetName` sets `Name` to the value, `Cluster` to
the first part, `Stack` to the second and `Environment` to the third; the tags after
it play no part. -/
theorem SetName_three_parts (inst : AWSInstance) (ec2Inst : Ec2Instance) (pre post : List Tag)
    (value p0 p1 p2 : String) (more : List String)
    (htags : ec2Inst.Tags = pre ++ ⟨"Name", value⟩ :: post)
    (hpre : ∀ t ∈ pre, ¬ (t.Key = "Name" ∧ t.Value.length > 0))
    (hv : value.length > 0)
    (hparts : Split value '.' = p0 :: p1 :: p2 :: more) :
    (inst.SetName ec2Inst).Name = value ∧
    (inst.SetName ec2Inst).Cluster = p0 ∧
    (inst.SetName ec2Inst).Stack = p1 ∧
    (inst.SetName ec2Inst).Environment = p2 := by
  unfold AWSInstance.SetName
  rw [htags, setNameLoop_first inst pre post value hpre hv]
  simp [AWSInstance.named, hparts]

/-- C15 (witness): the tags `Owner=ops`, `Name=web.app.prod.eu`, `Name=other.x.y`. -/
theorem SetName_three_parts_witness :
    (zeroInstance.SetName resizedRecord).Name = "web.app.prod.eu" ∧
    (zeroInstance.SetName resizedRecord).Cluster = "web" ∧
    (zeroInstance.SetName resizedRecord).Stack = "app" ∧
    (zeroInstance.SetName resizedRecord).Environment = "prod" :=
  SetName_three_parts zeroInstance resizedRecord [⟨"Owner", "ops"⟩] [⟨"Name", "other.x.y"⟩]
    "web.app.prod.eu" "web" "app" "prod" ["eu"] rfl (by decide) (by decide) (by decide)

/-- C16 (counterexample): a new instance whose only tag is `Name=web`, a value
without a dot, gets the cluster `web`, not the empty cluster. -/
theorem SetName_no_dot_sets_cluster :
    '.' ∉ "web".data ∧
    (zeroInstance.SetName microRecord).Cluster = "web" ∧
    (zeroInstance.SetName microRecord).Cluster ≠ "" := by
  decide

/-- C16 (amended): when the first tag with the key `Name` and a non-empty value has a
value without a dot, `SetName` sets `Name` and `Cluster` to the whole value and leaves
`Stack` and `Environment` as they were. -/
theorem SetName_no_dot (inst : AWSInstance) (ec2Inst : Ec2Instance) (pre post : List Tag)
    (value : String)
    (htags : ec2Inst.Tags = pre ++ ⟨"Name", value⟩ :: post)
    (hpre : ∀ t ∈ pre, ¬ (t.Key = "Name" ∧ t.Value.length > 0))
    (hv : value.length > 0)
    (hdot : '.' ∉ value.data) :
    (inst.SetName ec2Inst).Name = value ∧
    (inst.SetName ec2Inst).Cluster = value ∧
    (inst.SetName ec2Inst).Stack = inst.Stack ∧
    (inst.SetName ec2Inst).Environment = inst.Environment := by
  have hsplit : Split value '.' = [value] := by
    simp only [Split, splitChars_of_not_mem '.' value.data hdot, List.map]
  unfold AWSInstance.SetName
  rw [htags, setNameLoop_first inst pre post value hpre hv]
  simp [AWSInstance.named, hsplit]

/-- C16 (amended, witness): a new instance and the single tag `Name=web`. -/
theorem SetName_no_dot_witness :
    (zeroInstance.SetName microRecord).Name = "web" ∧
    (zeroInstance.SetName microRecord).Cluster = "web" ∧
    (zeroInstance.SetName microRecord).Stack = zeroInstance.Stack ∧
    (zeroInstance.SetName microRecord).Environment = zeroInstance.Environment :=
  SetName_no_dot zeroInstance microRecord [] [] "web" rfl (by decide) (by decide) (by decide)

/-- Folding `Add` over the positions adds up each component. -/
theorem foldl_Add (positions : List Vector3) (acc : Vector3) :
    positions.foldl Vector3.Add acc =
      ⟨acc.x + (positions.map (·.x)).sum, acc.y + (positions.map (·.y)).sum,
       acc.z + (positions.map (·.z)).sum⟩ := by
  induction positions generalizing acc with
  | nil => simp
  | cons p rest ih =>
    simp only [List.foldl_cons, ih, Vector3.Add, List.map_cons, List.sum_cons, add_assoc]

/-- The midpoint that `Idle.Update` computes is the arithmetic mean. -/
theorem midpoint_eq_centroid (positions : List Vector3) :
    (positions.foldl Vector3.Add ⟨0, 0, 0⟩).Scale (1 / (positions.length : Float64)) =
      centroid positions := by
  rw [foldl_Add]
  simp [Vector3.Scale, centroid, div_eq_mul_inv]

/-- A square length is not negative. -/
theorem SquareLength_nonneg (v : Vector3) : 0 ≤ v.SquareLength := by
  unfold Vector3.SquareLength
  nlinarith [mul_self_nonneg v.x, mul_self_nonneg v.y, mul_self_nonneg v.z]

/-- The distance `√d2` exceeds `√2 · s` exactly when `d2 > s · s · 2`, for `s ≥ 0`. -/
theorem sqrt_gt_iff (d2 s : ℚ) (hs : 0 ≤ s) :
    Real.sqrt (d2 : ℝ) > Real.sqrt 2 * (s : ℝ) ↔ d2 > (s * s) * 2 := by
  have hs' : (0 : ℝ) ≤ (s : ℝ) := by exact_mod_cast hs
  have h2 : Real.sqrt 2 * (s : ℝ) = Real.sqrt (((s * s) * 2 : ℚ) : ℝ) := by
    push_cast
    rw [mul_comm ((s : ℝ) * (s : ℝ)) 2, Real.sqrt_mul (by norm_num : (0 : ℝ) ≤ 2),
      Real.sqrt_mul_self hs']
  rw [h2, gt_iff_lt, Real.sqrt_lt_sqrt_iff (by positivity)]
  exact_mod_cast Iff.rfl

/-- The comparison `LengthLt` is the comparison of the real square root. -/
theorem LengthLt_iff (v : Vector3) (bound : ℚ) :
    v.LengthLt bound = true ↔ Real.sqrt (v.SquareLength : ℝ) < (bound : ℝ) := by
  unfold Vector3.LengthLt
  rw [decide_eq_true_iff]
  constructor
  · rintro ⟨hb, hlt⟩
    have hb' : (0 : ℝ) < (bound : ℝ) := by exact_mod_cast hb
    rw [Real.sqrt_lt' hb']
    have : ((v.SquareLength : ℚ) : ℝ) < ((bound * bound : ℚ) : ℝ) := by exact_mod_cast hlt
    rw [pow_two]
    exact_mod_cast this
  · intro h
    have hb' : (0 : ℝ) < (bound : ℝ) := lt_of_le_of_lt (Real.sqrt_nonneg _) h
    rw [Real.sqrt_lt' hb', pow_two] at h
    exact ⟨by exact_mod_cast hb', by exact_mod_cast h⟩

/-- C17: for a model whose x-scale is not negative, `Idle.Update` returns the
cluster state anchored at the arithmetic mean of the sibling positions when there
are at least two of them and the mean is farther than `√2 · scale.x` from the
position of the model, and nil in every other case. -/
theorem Idle_Update_iff (siblings : AWSInstance → Model → Bool → List Vector3)
    (NewCluster : Vector3 → State) (w : World) (hscale : 0 ≤ w.model.Scale.x) :
    (2 ≤ (siblings w.inst w.model true).length ∧
      Real.sqrt (((centroid (siblings w.inst w.model true)).NewSub
        w.model.position).SquareLength : ℝ) > Real.sqrt 2 * (w.model.Scale.x : ℝ) →
      Idle.Update siblings NewCluster w =
        some (NewCluster (centroid (siblings w.inst w.model true)))) ∧
    (¬ (2 ≤ (siblings w.inst w.model true).length ∧
      Real.sqrt (((centroid (siblings w.inst w.model true)).NewSub
        w.model.position).SquareLength : ℝ) > Real.sqrt 2 * (w.model.Scale.x : ℝ)) →
      Idle.Update siblings NewCluster w = none) := by
  unfold Idle.Update
  simp only [midpoint_eq_centroid]
  constructor
  · rintro ⟨hlen, hfar⟩
    rw [sqrt_gt_iff _ _ hscale] at hfar
    rw [if_neg (by omega), if_pos hfar]
  · intro hnot
    by_cases hlen : (siblings w.inst w.model true).length < 2
    · rw [if_pos hlen]
    · rw [if_neg hlen]
      have hfar : ¬ ((centroid (siblings w.inst w.model true)).NewSub
          w.model.position).SquareLength > (w.model.Scale.x * w.model.Scale.x) * 2 := by
        intro hc
        exact hnot ⟨by omega, (sqrt_gt_iff _ _ hscale).2 hc⟩
      rw [if_neg hfar]

/-- C17 (witness): siblings at (10, 0, 0) and (30, 0, 0), the model at (1, 2, 2) with
scale 4: the mean (20, 0, 0) is far enough, and the cluster state is returned. -/
theorem Idle_Update_iff_witness :
    Idle.Update twoSiblings (fun _ => restState) busyWorld =
      some ((fun _ => restState) (centroid (twoSiblings busyWorld.inst busyWorld.model true))) := by
  refine (Idle_Update_iff twoSiblings (fun _ => restState) busyWorld (by decide)).1 ⟨by decide, ?_⟩
  rw [sqrt_gt_iff _ _ (by decide)]
  simp only [centroid, twoSiblings, busyWorld, Vector3.NewSub, Vector3.SquareLength]
  norm_num

/-- C18: `Idle.Steering` returns the output with zero linear part and angular part
`(0, 1, 0)` when the CPU utilisation is at least 5 and the angular speed (the length
of the rotation vector) is below a eightieth of it, and nil in every other case. -/
theorem Idle_Steering_iff (w : World) :
    (5 ≤ w.inst.CPUUtilization ∧
      Real.sqrt (w.body.Rotation.SquareLength : ℝ) < ((w.inst.CPUUtilization / 80 : ℚ) : ℝ) →
      Idle.Steering w = some { linear := ⟨0, 0, 0⟩, angular := ⟨0, 1, 0⟩ }) ∧
    (¬ (5 ≤ w.inst.CPUUtilization ∧
      Real.sqrt (w.body.Rotation.SquareLength : ℝ) < ((w.inst.CPUUtilization / 80 : ℚ) : ℝ)) →
      Idle.Steering w = none) := by
  unfold Idle.Steering
  constructor
  · rintro ⟨hcpu, hslow⟩
    rw [if_neg (not_lt.mpr hcpu), if_pos ((LengthLt_iff _ _).2 hslow)]
    rfl
  · intro hnot
    by_cases hcpu : w.inst.CPUUtilization < 5
    · rw [if_pos hcpu]
    · rw [if_neg hcpu]
      have hfast : ¬ (w.body.Rotation.LengthLt (w.inst.CPUUtilization / 80) = true) :=
        fun hc => hnot ⟨not_lt.mp hcpu, (LengthLt_iff _ _).1 hc⟩
      rw [if_neg hfast]

/-- C18 (witness): at 40 % load and angular speed 0.3 < 0.5 the idle state spins the
body around the y axis. -/
theorem Idle_Steering_iff_witness :
    Idle.Steering busyWorld = some { linear := ⟨0, 0, 0⟩, angular := ⟨0, 1, 0⟩ } := by
  refine (Idle_Steering_iff busyWorld).1 ⟨by decide, ?_⟩
  rw [← LengthLt_iff, Vector3.LengthLt, decide_eq_true_iff]
  simp only [busyWorld, AWSInstance.CPUUtilization, Vector3.SquareLength]
  norm_num

/-- The loop of `Write` from index `i` on: when the clients before `c` accept the
frame and the send to `c` fails, the hub loses the client at index `i + pre.length`,
the error is returned, and `c` is the only client that is closed. -/
theorem writeLoop_error (Update : Client → Bytes → Nat → Nat × Option String)
    (network : clientHub) (cmd : Nat) (data : Bytes) (pre post : List Client) (c : Client)
    (err : String) (hpre : ∀ x ∈ pre, (Update x data cmd).2 = none)
    (hc : (Update c data cmd).2 = some err) (i n : Nat) (events : List HubEvent) :
    (writeLoop Update network cmd data i n events (pre ++ c :: post)).network =
        network.remove (i + pre.length) ∧
    (writeLoop Update network cmd data i n events (pre ++ c :: post)).err = some err ∧
    (writeLoop Update network cmd data i n events (pre ++ c :: post)).events =
        events ++ pre.map (fun x => HubEvent.Update x data cmd) ++
          [HubEvent.Update c data cmd, HubEvent.Close c] := by
  induction pre generalizing i n events with
  | nil =>
    simp only [List.nil_append, writeLoop, hc, List.length_nil, Nat.add_zero, List.map_nil,
      List.append_nil, and_self]
  | cons x rest ih =>
    have hx : (Update x data cmd).2 = none := hpre x (List.mem_cons_self _ _)
    have hrest : ∀ y ∈ rest, (Update y data cmd).2 = none :=
      fun y hy => hpre y (List.mem_cons_of_mem _ hy)
    simp only [List.cons_append, writeLoop, hx, List.length_cons, List.map_cons]
    obtain ⟨h1, h2, h3⟩ := ih hrest (i + 1) (n + (Update x data cmd).1)
      (events ++ [HubEvent.Update x data cmd])
    refine ⟨h1.trans ?_, h2, h3.trans ?_⟩
    · congr 1
      omega
    · simp

/-- C20: when the clients before `c` accept the frame and the send to `c` fails,
the client list of the hub after `Write` is the original list without `c`, the other
clients in their original order; `c` is the one client that is closed, and its error
is returned. -/
theorem Write_removes_failing_client (Update : Client → Bytes → Nat → Nat × Option String)
    (cmd : Nat) (data : Bytes) (pre post : List Client) (c : Client) (err : String)
    (hpre : ∀ x ∈ pre, (Update x data cmd).2 = none)
    (hc : (Update c data cmd).2 = some err) :
    (clientHub.Write Update ⟨pre ++ c :: post⟩ cmd data).network.clients = pre ++ post ∧
    (clientHub.Write Update ⟨pre ++ c :: post⟩ cmd data).err = some err ∧
    (∀ x, HubEvent.Close x ∈ (clientHub.Write Update ⟨pre ++ c :: post⟩ cmd data).events ↔
      x = c) := by
  obtain ⟨h1, h2, h3⟩ :=
    writeLoop_error Update ⟨pre ++ c :: post⟩ cmd data pre post c err hpre hc 0 0 []
  unfold clientHub.Write
  refine ⟨?_, h2, fun x => ?_⟩
  · rw [h1]
    simp [clientHub.remove, List.take_append_eq_append_take, List.drop_append_eq_append_drop]
  · rw [h3]
    simp

/-- C20 (witness): the clients 5, 1, 2 on a network where only client 1 fails. -/
theorem Write_removes_failing_client_witness :
    (clientHub.Write brokenFirst ⟨[5] ++ 1 :: [2]⟩ 0 [7]).network.clients = [5] ++ [2] ∧
    (clientHub.Write brokenFirst ⟨[5] ++ 1 :: [2]⟩ 0 [7]).err = some "write: broken pipe" ∧
    (∀ x, HubEvent.Close x ∈ (clientHub.Write brokenFirst ⟨[5] ++ 1 :: [2]⟩ 0 [7]).events ↔
      x = 1) :=
  Write_removes_failing_client brokenFirst 0 [7] [5] [2] 1 "write: broken pipe"
    (by decide) (by decide)

/-- Rounding an integer leaves it as it is. -/
theorem roundHalfEven_natCast (n : Nat) : roundHalfEven (n : ℚ) = n := by
  simp [roundHalfEven]

/-- Bounds on a quotient from the binary logarithms of its two terms. -/
theorem quotient_bounds (N D : ℚ) (ln ld : ℕ) (hnlo : (2 : ℚ) ^ ln ≤ N)
    (hnhi : N < (2 : ℚ) ^ (ln + 1)) (hdlo : (2 : ℚ) ^ ld ≤ D) (hdhi : D < (2 : ℚ) ^ (ld + 1)) :
    (2 : ℚ) ^ ((ln : Int) - (ld : Int) - 1) ≤ N / D ∧
      N / D < (2 : ℚ) ^ ((ln : Int) - (ld : Int) + 1) := by
  have hdpos : (0 : ℚ) < D := lt_of_lt_of_le (by positivity) hdlo
  have hnpos : (0 : ℚ) < N := lt_of_lt_of_le (by positivity) hnlo
  constructor
  · have : (2 : ℚ) ^ ((ln : Int) - (ld : Int) - 1) = (2 : ℚ) ^ ln / (2 : ℚ) ^ (ld + 1) := by
      rw [← zpow_natCast, ← zpow_natCast, ← zpow_sub₀ (by norm_num : (2 : ℚ) ≠ 0)]
      congr 1
      push_cast
      ring
    rw [this]
    exact div_le_div₀ hnpos.le hnlo hdpos hdhi.le
  · have : (2 : ℚ) ^ ((ln : Int) - (ld : Int) + 1) = (2 : ℚ) ^ (ln + 1) / (2 : ℚ) ^ ld := by
      rw [← zpow_natCast, ← zpow_natCast, ← zpow_sub₀ (by norm_num : (2 : ℚ) ≠ 0)]
      congr 1
      push_cast
      ring
    rw [this]
    exact div_lt_div₀ hnhi hdlo (by positivity) (by positivity)

/-- The exponent that `float32OfFloat64` computes is the binary logarithm, rounded down. -/
theorem exponent_bounds (a : ℚ) (ha : 0 < a) :
    (2 : ℚ) ^ (if a < (2 : ℚ) ^ ((Nat.log2 a.num.natAbs : Int) - (Nat.log2 a.den : Int))
        then (Nat.log2 a.num.natAbs : Int) - (Nat.log2 a.den : Int) - 1
        else (Nat.log2 a.num.natAbs : Int) - (Nat.log2 a.den : Int)) ≤ a ∧
    a < (2 : ℚ) ^ ((if a < (2 : ℚ) ^ ((Nat.log2 a.num.natAbs : Int) - (Nat.log2 a.den : Int))
        then (Nat.log2 a.num.natAbs : Int) - (Nat.log2 a.den : Int) - 1
        else (Nat.log2 a.num.natAbs : Int) - (Nat.log2 a.den : Int)) + 1) := by
  have hnum : 0 < a.num := Rat.num_pos.mpr ha
  have hn0 : a.num.natAbs ≠ 0 := by
    intro h
    have := Int.natAbs_eq_zero.mp h
    omega
  have hd0 : a.den ≠ 0 := a.den_nz
  have hnlo : (2 : ℚ) ^ (Nat.log2 a.num.natAbs) ≤ (a.num.natAbs : ℚ) := by
    exact_mod_cast Nat.log2_self_le hn0
  have hnhi : (a.num.natAbs : ℚ) < (2 : ℚ) ^ (Nat.log2 a.num.natAbs + 1) := by
    exact_mod_cast (Nat.lt_log2_self : a.num.natAbs < 2 ^ (Nat.log2 a.num.natAbs + 1))
  have hdlo : (2 : ℚ) ^ (Nat.log2 a.den) ≤ (a.den : ℚ) := by
    exact_mod_cast Nat.log2_self_le hd0
  have hdhi : (a.den : ℚ) < (2 : ℚ) ^ (Nat.log2 a.den + 1) := by
    exact_mod_cast (Nat.lt_log2_self : a.den < 2 ^ (Nat.log2 a.den + 1))
  have hnabs : ((a.num.natAbs : ℕ) : ℚ) = (a.num : ℚ) := by
    rw [← Int.cast_natCast, Int.natAbs_of_nonneg hnum.le]
  have haeq : (a.num.natAbs : ℚ) / (a.den : ℚ) = a := by
    rw [hnabs]
    exact Rat.num_div_den a
  obtain ⟨hlow, hupp⟩ := quotient_bounds _ _ _ _ hnlo hnhi hdlo hdhi
  rw [haeq] at hlow hupp
  split_ifs with hlt
  · refine ⟨hlow, ?_⟩
    rw [sub_add_cancel]
    exact hlt
  · exact ⟨not_lt.mp hlt, hupp⟩

/-- A positive rational lies between two consecutive powers of two for one exponent
only. -/
theorem exponent_unique (a : ℚ) (e f : Int) (h1 : (2 : ℚ) ^ e ≤ a) (h2 : a < (2 : ℚ) ^ (e + 1))
    (h3 : (2 : ℚ) ^ f ≤ a) (h4 : a < (2 : ℚ) ^ (f + 1)) : e = f := by
  have hlt1 : (2 : ℚ) ^ e < (2 : ℚ) ^ (f + 1) := lt_of_le_of_lt h1 h4
  have hlt2 : (2 : ℚ) ^ f < (2 : ℚ) ^ (e + 1) := lt_of_le_of_lt h3 h2
  rw [zpow_lt_zpow_iff_right₀ (by norm_num : (1 : ℚ) < 2)] at hlt1 hlt2
  omega

/-- The pattern of a float64 value that a normal binary32 represents exactly: the
value `± M · 2^k` with a 24-bit significand `M` has the sign bit, the biased exponent
`k + 150` and the low 23 bits of `M`. -/
theorem float32OfFloat64_dyadic (M : Nat) (k : Int) (neg : Bool) (hlo : 2 ^ 23 ≤ M)
    (hhi : M < 2 ^ 24) (hk1 : -149 ≤ k) (hk2 : k ≤ 104) :
    float32OfFloat64 ((if neg then -1 else 1) * ((M : ℚ) * (2 : ℚ) ^ k)) =
      (if neg then 2 ^ 31 else 0) + ((k + 149).toNat * 2 ^ 23 + M) := by
  have h2k : (0 : ℚ) < (2 : ℚ) ^ k := zpow_pos (by norm_num) k
  have hMq : (2 : ℚ) ^ (23 : Int) ≤ (M : ℚ) := by
    have : ((2 ^ 23 : ℕ) : ℚ) ≤ (M : ℚ) := by exact_mod_cast hlo
    have h23 : (2 : ℚ) ^ (23 : Int) = ((2 ^ 23 : ℕ) : ℚ) := by norm_num
    rw [h23]
    exact this
  have hMq2 : (M : ℚ) < (2 : ℚ) ^ (24 : Int) := by
    have : (M : ℚ) < ((2 ^ 24 : ℕ) : ℚ) := by exact_mod_cast hhi
    have h24 : (2 : ℚ) ^ (24 : Int) = ((2 ^ 24 : ℕ) : ℚ) := by norm_num
    rw [h24]
    exact this
  have hMpos : (0 : ℚ) < (M : ℚ) := lt_of_lt_of_le (by positivity) hMq
  have ha : (0 : ℚ) < (M : ℚ) * (2 : ℚ) ^ k := mul_pos hMpos h2k
  generalize hadef : (M : ℚ) * (2 : ℚ) ^ k = a at ha
  have hx0 : ¬ ((if neg then (-1 : ℚ) else 1) * a = 0) := by
    cases neg <;> simp <;> linarith
  have habs : |(if neg then (-1 : ℚ) else 1) * a| = a := by
    cases neg <;> simp [abs_of_pos ha]
  have hneg : ((if neg then (-1 : ℚ) else 1) * a < 0) ↔ neg = true := by
    cases neg <;> simp <;> linarith
  -- the exponent
  have hb1 : (2 : ℚ) ^ (k + 23) ≤ a := by
    rw [← hadef, add_comm, zpow_add₀ (by norm_num : (2 : ℚ) ≠ 0)]
    exact mul_le_mul_of_nonneg_right hMq h2k.le
  have hb2 : a < (2 : ℚ) ^ (k + 23 + 1) := by
    rw [← hadef, show k + 23 + 1 = 24 + k by ring, zpow_add₀ (by norm_num : (2 : ℚ) ≠ 0)]
    exact mul_lt_mul_of_pos_right hMq2 h2k
  obtain ⟨hb3, hb4⟩ := exponent_bounds a ha
  have hE := exponent_unique a _ _ hb3 hb4 hb1 hb2
  have hmax : max (k + 23) (-126) = k + 23 := max_eq_left (by omega)
  have hscaled : a * (2 : ℚ) ^ (23 - (k + 23)) = (M : ℚ) := by
    rw [← hadef, show (23 : Int) - (k + 23) = -k by ring, mul_assoc,
      ← zpow_add₀ (by norm_num : (2 : ℚ) ≠ 0)]
    simp
  have hbias : (k + 23 + 126).toNat = (k + 149).toNat := by
    congr 1
    ring
  have hfin : ¬ ((k + 149).toNat * 2 ^ 23 + M ≥ 0x7F800000) := by
    have : (k + 149).toNat ≤ 253 := by omega
    omega
  unfold float32OfFloat64
  simp only [hx0, if_false, habs, hE, hmax, hscaled, roundHalfEven_natCast, hbias, hfin]
  cases neg <;> simp [ha, ha.le, not_lt.mpr ha.le]

/-- Reading back the pattern of a float64 value that a normal binary32 represents
exactly gives the value. -/
theorem float32Value_float32OfFloat64 (M : Nat) (k : Int) (neg : Bool) (hlo : 2 ^ 23 ≤ M)
    (hhi : M < 2 ^ 24) (hk1 : -149 ≤ k) (hk2 : k ≤ 104) :
    float32Value (float32OfFloat64 ((if neg then -1 else 1) * ((M : ℚ) * (2 : ℚ) ^ k))) =
      (if neg then -1 else 1) * ((M : ℚ) * (2 : ℚ) ^ k) := by
  rw [float32OfFloat64_dyadic M k neg hlo hhi hk1 hk2]
  obtain ⟨K, hK⟩ : ∃ K : Nat, (k + 149).toNat = K := ⟨_, rfl⟩
  have hKk : (K : Int) = k + 149 := by omega
  have hK253 : K ≤ 253 := by omega
  obtain ⟨s, hs⟩ : ∃ s : Nat, (if neg then 2 ^ 31 else 0) = s ∧ (s = 0 ∨ s = 2 ^ 31) ∧
      (s = 2 ^ 31 ↔ neg = true) := by
    cases neg
    · exact ⟨0, by simp⟩
    · exact ⟨2 ^ 31, by simp⟩
  obtain ⟨hs1, hs2, hs3⟩ := hs
  rw [hK, hs1]
  unfold float32Value
  have hsign : (s + (K * 2 ^ 23 + M)) / 2 ^ 31 % 2 = if neg then 1 else 0 := by
    rcases hs2 with h | h
    · have : neg = false := by
        cases neg
        · rfl
        · exact absurd (hs3.2 rfl) (by omega)
      subst this h
      simp only [Bool.false_eq_true, if_false]
      omega
    · have : neg = true := hs3.1 h
      subst this h
      simp only [if_true]
      omega
  have hEf : (s + (K * 2 ^ 23 + M)) / 2 ^ 23 % 256 = K + 1 := by
    rcases hs2 with h | h <;> subst h <;> omega
  have hm : (s + (K * 2 ^ 23 + M)) % 2 ^ 23 = M - 2 ^ 23 := by
    rcases hs2 with h | h <;> subst h <;> omega
  simp only [hsign, hEf, hm]
  rw [if_neg (by omega)]
  have hcast : ((M - 2 ^ 23 : ℕ) : ℚ) = (M : ℚ) - 2 ^ 23 := by
    rw [Nat.cast_sub hlo]
    norm_num
  have hexp : ((K + 1 : ℕ) : Int) - 150 = k := by
    push_cast
    omega
  rw [hcast, hexp]
  cases neg <;> simp

/-- The pattern of a number below 2^24, given its binary logarithm: the cast is
exact. -/
theorem float32OfNat_of_small_log2 (n e : Nat) (he : Nat.log2 n = e) (h0 : n ≠ 0)
    (h23 : e ≤ 23) : float32OfNat n = (e + 126) * 2 ^ 23 + n * 2 ^ (23 - e) := by
  unfold float32OfNat
  rw [he, if_neg h0]
  simp only [h23, if_true]

/-- The float 1.0 is the pattern 0x3F800000. -/
theorem float32OfNat_one : float32OfNat 1 = 0x3F800000 := by
  rw [float32OfNat_of_small_log2 1 0 (log2_eq_of_bounds _ _ (by norm_num) (by norm_num))
    (by norm_num) (by norm_num)]
  norm_num

/-- The float 3.0 is the pattern 0x40400000. -/
theorem float32OfNat_three : float32OfNat 3 = 0x40400000 := by
  rw [float32OfNat_of_small_log2 3 1 (log2_eq_of_bounds _ _ (by norm_num) (by norm_num))
    (by norm_num) (by norm_num)]
  norm_num

/-- The float64 1.0 is converted to the pattern 0x3F800000. -/
theorem float32OfFloat64_one : float32OfFloat64 1 = 0x3F800000 := by
  have h := float32OfFloat64_dyadic 8388608 (-23) false (by norm_num) (by norm_num)
    (by norm_num) (by norm_num)
  have hx : (if false = true then (-1 : ℚ) else 1) * (((8388608 : ℕ) : ℚ) * (2 : ℚ) ^ (-23 : Int))
      = 1 := by norm_num
  rw [hx] at h
  rw [h]
  decide

/-- The float64 2.0 is converted to the pattern 0x40000000. -/
theorem float32OfFloat64_two : float32OfFloat64 2 = 0x40000000 := by
  have h := float32OfFloat64_dyadic 8388608 (-22) false (by norm_num) (by norm_num)
    (by norm_num) (by norm_num)
  have hx : (if false = true then (-1 : ℚ) else 1) * (((8388608 : ℕ) : ℚ) * (2 : ℚ) ^ (-22 : Int))
      = 2 := by norm_num
  rw [hx] at h
  rw [h]
  decide

/-- The float64 3.0 is converted to the pattern 0x40400000. -/
theorem float32OfFloat64_three : float32OfFloat64 3 = 0x40400000 := by
  have h := float32OfFloat64_dyadic 12582912 (-22) false (by norm_num) (by norm_num)
    (by norm_num) (by norm_num)
  have hx : (if false = true then (-1 : ℚ) else 1) * (((12582912 : ℕ) : ℚ) * (2 : ℚ) ^ (-22 : Int))
      = 3 := by norm_num
  rw [hx] at h
  rw [h]
  decide

/-- The float64 0.0 is converted to the pattern 0. -/
theorem float32OfFloat64_zero : float32OfFloat64 0 = 0 := by
  simp [float32OfFloat64]

/-- The bytes that `serialize` writes for the sample object: id 3, position
(1, 2, 3), orientation (1, 0, 0, 0), a model of Go type `int` with value 1, and
scale (1, 1, 1). -/
theorem serialize_sampleObject :
    serialize [] sampleObject =
      some [1, 0, 0, 64, 64,
            2, 0, 0, 128, 63, 0, 0, 0, 64, 0, 0, 64, 64,
            3, 0, 0, 128, 63, 0, 0, 0, 0, 0, 0, 0, 0, 0, 0, 0, 0,
            4, 1, 0, 0, 0,
            5, 0, 0, 128, 63, 0, 0, 128, 63, 0, 0, 128, 63] := by
  rw [serialize_layout [] sampleObject (by decide)]
  simp only [sampleObject, payload, float32OfNat_three, float32OfFloat64_one,
    float32OfFloat64_two, float32OfFloat64_three, float32OfFloat64_zero]
  decide

/-- C10 (counterexample): for the sample object, whose model is the Go `int` 1, the
MODEL_TYPE field that `serialize` writes is the tag 4 followed by 1, 0, 0, 0: the
32-bit integer 1, not the float 1.0, whose bytes are 0, 0, 128, 63; read as a float
the four bytes denote 2^-149. -/
theorem serialize_model_type_not_float :
    serialize [] sampleObject =
      some [1, 0, 0, 64, 64,
            2, 0, 0, 128, 63, 0, 0, 0, 64, 0, 0, 64, 64,
            3, 0, 0, 128, 63, 0, 0, 0, 0, 0, 0, 0, 0, 0, 0, 0, 0,
            4, 1, 0, 0, 0,
            5, 0, 0, 128, 63, 0, 0, 128, 63, 0, 0, 128, 63] ∧
    le32 (float32OfNat 1) = [0, 0, 128, 63] ∧
    float32Value (le32Decode [1, 0, 0, 0]) ≠ 1 := by
  refine ⟨serialize_sampleObject, ?_, ?_⟩
  · rw [float32OfNat_one]
    decide
  · have h : float32Value (le32Decode [1, 0, 0, 0]) = (2 : ℚ) ^ (-149 : Int) := by
      simp [float32Value, le32Decode]
    rw [h]
    intro hc
    have h1 : (2 : ℚ) ^ (-149 : Int) < (2 : ℚ) ^ (0 : Int) :=
      zpow_lt_zpow_right₀ (by norm_num) (by norm_num)
    rw [hc] at h1
    norm_num at h1

/-- C10 (amended): for a game object whose model, if it has a graphic, is of a type
that `binaryStream` knows, `serialize` appends exactly: tag 1 and the id as one
float32; tag 2 and the position as three float32; tag 3 and the orientation as four
float32 in the order R, I, J, K; tag 4, exactly when the object has a graphic,
followed by the model in the encoding of its Go type (one float32 for a uint16,
uint32, float32, float64 or ID, a 32-bit integer for an int, one byte for a uint8,
three or four float32 for a vector or quaternion); tag 5 and the scale as three
float32. The four bytes of a pattern are little endian, an id up to 2^24 is read back
from its float32 exactly, and so is every float64 value that a normal binary32
represents exactly, and zero. -/
theorem serialize_fields (buf : Bytes) (o : GameObject) (h : o.graphic ≠ some Value.other) :
    serialize buf o = some (buf ++
      ((1 :: le32 (float32OfNat o.id)) ++
       (2 :: (le32 (float32OfFloat64 o.transform.position.x) ++
              le32 (float32OfFloat64 o.transform.position.y) ++
              le32 (float32OfFloat64 o.transform.position.z))) ++
       (3 :: (le32 (float32OfFloat64 o.transform.orientation.R) ++
              le32 (float32OfFloat64 o.transform.orientation.I) ++
              le32 (float32OfFloat64 o.transform.orientation.J) ++
              le32 (float32OfFloat64 o.transform.orientation.K))) ++
       (match o.graphic with
        | none => []
        | some (.uint8 val) => [4, val % 256]
        | some (.uint16 val) => 4 :: le32 (float32OfNat val)
        | some (.uint32 val) => 4 :: le32 (float32OfNat val)
        | some (.int val) => 4 :: le32 (int32Bits val)
        | some (.float32 bits) => 4 :: le32 bits
        | some (.float64 val) => 4 :: le32 (float32OfFloat64 val)
        | some (.ID val) => 4 :: le32 (float32OfNat val)
        | some (.Vector3 val) =>
          4 :: (le32 (float32OfFloat64 val.x) ++ le32 (float32OfFloat64 val.y) ++
            le32 (float32OfFloat64 val.z))
        | some (.Quaternion val) =>
          4 :: (le32 (float32OfFloat64 val.R) ++ le32 (float32OfFloat64 val.I) ++
            le32 (float32OfFloat64 val.J) ++ le32 (float32OfFloat64 val.K))
        | some .other => []) ++
       (5 :: (le32 (float32OfFloat64 o.transform.scale.x) ++
              le32 (float32OfFloat64 o.transform.scale.y) ++
              le32 (float32OfFloat64 o.transform.scale.z))))) ∧
    (∀ bits, bits < 2 ^ 32 → le32Decode (le32 bits) = bits) ∧
    (∀ n, n ≤ 2 ^ 24 → float32ToNat (float32OfNat n) = n) ∧
    (∀ (M : Nat) (k : Int) (neg : Bool), 2 ^ 23 ≤ M → M < 2 ^ 24 → -149 ≤ k → k ≤ 104 →
      float32Value (float32OfFloat64 ((if neg then -1 else 1) * ((M : ℚ) * (2 : ℚ) ^ k))) =
        (if neg then -1 else 1) * ((M : ℚ) * (2 : ℚ) ^ k)) ∧
    float32Value (float32OfFloat64 0) = 0 := by
  refine ⟨?_, le32Decode_le32, float32ToNat_float32OfNat, float32Value_float32OfFloat64, ?_⟩
  · rw [serialize_layout buf o h]
    cases hg : o.graphic with
    | none => rfl
    | some model =>
      have hm : model ≠ Value.other := fun hc => h (by rw [hg, hc])
      cases model <;> first
        | rfl
        | exact absurd rfl hm
  · rw [float32OfFloat64_zero]
    simp [float32Value]

/-- C10 (amended, witness): the sample object, written into an empty buffer: its
model is the Go `int` 1 and is written as a 32-bit integer. -/
theorem serialize_fields_witness :
    serialize [] sampleObject = some ([] ++
      ((1 :: le32 (float32OfNat 3)) ++
       (2 :: (le32 (float32OfFloat64 1) ++ le32 (float32OfFloat64 2) ++
              le32 (float32OfFloat64 3))) ++
       (3 :: (le32 (float32OfFloat64 1) ++ le32 (float32OfFloat64 0) ++
              le32 (float32OfFloat64 0) ++ le32 (float32OfFloat64 0))) ++
       (4 :: le32 (int32Bits 1)) ++
       (5 :: (le32 (float32OfFloat64 1) ++ le32 (float32OfFloat64 1) ++
              le32 (float32OfFloat64 1))))) :=
  (serialize_fields [] sampleObject (by decide)).1

/-- Every cost in the table is at least 0.01. -/
theorem typeToCost_ge (key : String) (c : ℚ) (h : typeToCost key = some c) : 1 / 100 ≤ c := by
  have hmem := mem_of_lookup key c typeToCostEntries h
  have hall : ∀ p ∈ typeToCostEntries, 1 / 100 ≤ p.2 := by
    intro p hp
    simp only [typeToCostEntries, List.mem_cons, List.mem_singleton, List.not_mem_nil,
      or_false] at hp
    rcases hp with h | h | h | h | h | h | h | h | h | h | h <;> rw [h] <;> norm_num
  exact hall (key, c) hmem

/-- No integer has the cube 200. -/
theorem no_integer_cube_200 (y : Int) : y ^ 3 ≠ 200 := by
  intro h
  rcases le_or_lt y 5 with h5 | h6
  · rcases le_or_lt y 0 with h0 | h1
    · have : y ^ 3 ≤ 0 := by
        have hodd : Odd 3 := by decide
        exact hodd.pow_nonpos h0
      omega
    · interval_cases y <;> norm_num at h
  · have : (6 : Int) ^ 3 ≤ y ^ 3 := pow_le_pow_left₀ (by norm_num) (by omega) 3
    norm_num at this
    omega

/-- No rational has the cube 200: every finite float64 is a rational. -/
theorem no_rational_cube_200 (s : ℚ) : s ^ 3 ≠ 200 := by
  intro h
  have hr : ((s : ℝ)) ^ 3 = ((200 : Int) : ℝ) := by
    have : ((s ^ 3 : ℚ) : ℝ) = ((200 : ℚ) : ℝ) := by rw [h]
    push_cast at this
    push_cast
    exact this
  have hnot : ¬ ∃ y : Int, (s : ℝ) = (y : ℝ) := by
    rintro ⟨y, hy⟩
    rw [hy] at hr
    have : (y ^ 3 : Int) = 200 := by exact_mod_cast hr
    exact no_integer_cube_200 y this
  have hirr : Irrational (s : ℝ) := irrational_nrt_of_notint_nrt 3 200 hr hnot (by norm_num)
  exact (Rat.not_irrational s) hirr

/-- The real cube root of 200 lies between 5.84 and 5.85. -/
theorem cube_root_200_bounds :
    (5.84 : ℝ) < (200 : ℝ) ^ ((1 : ℝ) / 3) ∧ (200 : ℝ) ^ ((1 : ℝ) / 3) < 5.85 := by
  have hcube := rpow_third_cube (200 : ℝ) (by norm_num)
  have hpos : (0 : ℝ) < (200 : ℝ) ^ ((1 : ℝ) / 3) := Real.rpow_pos_of_pos (by norm_num) _
  constructor
  · by_contra hle
    push_neg at hle
    have : ((200 : ℝ) ^ ((1 : ℝ) / 3)) ^ 3 ≤ 5.84 ^ 3 := pow_le_pow_left₀ hpos.le hle 3
    norm_num [hcube] at this
  · by_contra hle
    push_neg at hle
    have : (5.85 : ℝ) ^ 3 ≤ ((200 : ℝ) ^ ((1 : ℝ) / 3)) ^ 3 :=
      pow_le_pow_left₀ (by norm_num) hle 3
    norm_num [hcube] at this

/-- C13 (counterexample): whatever rational value `math.Pow` returns (every finite
float64 is a rational), the side `s` that `SetScale` computes for `t2.micro` does not
satisfy `s ^ 3 = 0.02 * 10000`, because 200 is not the cube of a rational. -/
theorem SetScale_cube_not_exact :
    typeToCost microRecord.InstanceType = some 0.02 ∧
    ¬ ∃ Pow : ℚ → ℚ → ℚ, (SetScale Pow microRecord).x ^ 3 = 0.02 * 10000 := by
  refine ⟨rfl, ?_⟩
  rintro ⟨Pow, h⟩
  apply no_rational_cube_200 (SetScale Pow microRecord).x
  rw [h]
  norm_num

/-- C13 (amended): for an instance class with the hourly cost `c` in the cost table,
`SetScale` sets the scale to `(s, s, s)` with `s = math.Pow(c * 10000, 1/3)`; when
that float64 is within `ε ≤ 1` of the real cube root `r` of `c * 10000` (`r > 0`,
`r ^ 3 = c * 10000`), the side `s` is strictly positive and within `ε` of `r`. -/
theorem SetScale_side (Pow : ℚ → ℚ → ℚ) (ec2Inst : Ec2Instance) (c : ℚ) (ε : ℝ)
    (h : typeToCost ec2Inst.InstanceType = some c) (hε : ε ≤ 1)
    (hacc : |((Pow (c * 10000) (1 / 3) : ℚ) : ℝ) - ((c : ℝ) * 10000) ^ ((1 : ℝ) / 3)| ≤ ε) :
    ∃ (s : ℚ) (r : ℝ), SetScale Pow ec2Inst = ⟨s, s, s⟩ ∧ s = Pow (c * 10000) (1 / 3) ∧
      0 < r ∧ r ^ 3 = (c : ℝ) * 10000 ∧ |(s : ℝ) - r| ≤ ε ∧ 0 < s := by
  have hc : (1 : ℝ) ≤ (c : ℝ) * 10000 := by
    have h1 : ((1 / 100 : ℚ) : ℝ) ≤ (c : ℝ) := by exact_mod_cast typeToCost_ge _ c h
    have h2 : ((1 / 100 : ℚ) : ℝ) = 1 / 100 := by norm_num
    rw [h2] at h1
    linarith
  have hcpos : (0 : ℝ) < (c : ℝ) * 10000 := by linarith
  have hgt : (c : ℝ) * 10000 > 1 := by
    have h1 : ((1 / 100 : ℚ) : ℝ) ≤ (c : ℝ) := by exact_mod_cast typeToCost_ge _ c h
    have h2 : ((1 / 100 : ℚ) : ℝ) = 1 / 100 := by norm_num
    rw [h2] at h1
    linarith
  have hr1 : (1 : ℝ) < ((c : ℝ) * 10000) ^ ((1 : ℝ) / 3) :=
    Real.one_lt_rpow hgt (by norm_num)
  refine ⟨Pow (c * 10000) (1 / 3), ((c : ℝ) * 10000) ^ ((1 : ℝ) / 3), ?_, rfl,
    by linarith, rpow_third_cube _ hcpos, hacc, ?_⟩
  · simp only [SetScale, h, Rat.cast_id]
  · have hlow := (abs_le.mp hacc).1
    have : (0 : ℝ) < ((Pow (c * 10000) (1 / 3) : ℚ) : ℝ) := by linarith
    exact_mod_cast this

/-- C13 (amended, witness): `t2.micro` with a `math.Pow` that returns 5.848 for the
cube root of 200. -/
theorem SetScale_side_witness :
    ∃ (s : ℚ) (r : ℝ), SetScale (fun _ _ => 5.848) microRecord = ⟨s, s, s⟩ ∧
      s = (fun (_ _ : ℚ) => (5.848 : ℚ)) (0.02 * 10000) (1 / 3) ∧
      0 < r ∧ r ^ 3 = ((0.02 : ℚ) : ℝ) * 10000 ∧ |(s : ℝ) - r| ≤ 1 ∧ 0 < s :=
  SetScale_side (fun _ _ => 5.848) microRecord 0.02 1 rfl (le_refl 1) (by
    have hb := cube_root_200_bounds
    have h200 : ((0.02 : ℚ) : ℝ) * 10000 = 200 := by norm_num
    rw [h200, abs_le]
    constructor <;> norm_num <;> linarith [hb.1, hb.2])

end Cyberspace
